import Mathlib

/-!
# VST3 Project Generator: the controller of `source/controller.cpp`

A shallow embedding of the parts of `Steinberg::Vst::ProjectCreator::Controller`
that drive the external CMake tool, followed by theorems about them.

Conventions of the embedding

* A `std::string` / `UTF8String` is the list of its `char` values (`CppString`).
  A `char` is modelled by the integer it promotes to, so that both signed and
  unsigned `char` platforms are covered by the same definitions.
* The controller is a record (`Controller`) holding the values of the UI model
  that the functions read or write, the member `cmakeCapabilities`, and three
  ghost components: the processes whose callback is still registered, a counter
  naming the processes, and a trace of the calls made to collaborators.
* Everything outside `controller.cpp` that the functions call (the process
  class, the capability parser, the file system, the VSTGUI value converters)
  is a field of `Env`.
* A member function that mutates the controller becomes a function
  `Controller → Controller`.
-/

namespace ProjectCreator

/-! ## Strings -/

/-- The value of a C++ `char` after integral promotion: `0 .. 127` for ASCII, and for a
byte `>= 0x80` either `128 .. 255` (unsigned `char`) or `-128 .. -1` (signed `char`). -/
abbrev CChar := Int

/-- A `std::string`: the sequence of its `char` values. -/
abbrev CppString := List CChar

/-- An ASCII string literal of the source as a `CppString`. -/
def lit (s : String) : CppString := s.toList.map (fun ch => (ch.toNat : Int))

/-- The `const char*` view of a string (`std::string::data` handed to a C-string
constructor): the characters before the first NUL. -/
def cstr (s : CppString) : CppString := s.takeWhile (fun ch => ch != 0)

/-- `PlatformPathDelimiter`: a backslash on Windows, a slash elsewhere. -/
def PlatformPathDelimiter (windows : Bool) : CChar := if windows then 92 else 47

/-! ## `makeValidCppName` -/

/-- The `legal` test of the lambda in `makeValidCppName` (lines 85-86). -/
def legal (c replaceChar : CChar) : Bool :=
  (decide (c ≥ 0x30) && decide (c < 0x3A)) || (decide (c ≥ 0x41) && decide (c < 0x5B)) ||
    (decide (c ≥ 0x61) && decide (c < 0x7B)) || c == replaceChar

/-- The `std::replace_if` loop of `makeValidCppName` with its counting predicate: one
application of the predicate per element, in order; an element for which the predicate
holds is overwritten with `replaceChar`. The second component threads `replaced`
(a `size_t` that is incremented at most `str.size ()` times, hence never wraps). -/
def replaceIfNotLegal (replaceChar : CChar) : CppString → Nat → CppString × Nat
  | [], replaced => ([], replaced)
  | c :: rest, replaced =>
    let isLegal := legal c replaceChar
    let replaced := if !isLegal then replaced + 1 else replaced
    let r := replaceIfNotLegal replaceChar rest replaced
    ((if !isLegal then replaceChar else c) :: r.1, r.2)

/-- The function `makeValidCppName (std::string& str, char replaceChar)`: returns the
string left in `str` and the returned count. -/
def makeValidCppName (str : CppString) (replaceChar : CChar) : CppString × Nat :=
  replaceIfNotLegal replaceChar str 0

/-- The default argument `replaceChar = '_'`. -/
def defaultReplaceChar : CChar := 95

/-- The character class `[0-9A-Za-z_]` on `char` values. -/
def InCppNameSet (c : CChar) : Prop :=
  (48 ≤ c ∧ c ≤ 57) ∨ (65 ≤ c ∧ c ≤ 90) ∨ (97 ≤ c ∧ c ≤ 122) ∨ c = 95

instance (c : CChar) : Decidable (InCppNameSet c) := by
  unfold InCppNameSet; infer_instance

/-- Number of positions at which two strings differ (positions present in both). -/
def differingPositions (a b : CppString) : Nat :=
  (a.zip b).countP (fun p => p.1 != p.2)

/-- What the claim prescribes at one position: keep a character of `[0-9A-Za-z_]`, put
an underscore for any other. -/
def keepOrUnderscore (c : CChar) : CChar := if InCppNameSet c then c else 95

/-! ## Data model -/

/-- Modelled from the spec: the capability record returned by `parseCMakeCapabilities`
and stored in `Controller::cmakeCapabilities`; its declaration is outside
`controller.cpp`. The version triple is zero when unknown, and the generator names are
kept in the order reported. -/
structure CMakeCapabilities where
  versionMajor : Nat
  versionMinor : Nat
  versionPatch : Nat
  generators : List CppString
  deriving DecidableEq, Repr

/-- The state of the `IStringListValue` behind `valueIdCMakeGenerators`: its string list
and its current value (the normalized value is abstracted to a natural number). -/
structure StringListValue where
  strings : List CppString
  value : Nat
  deriving DecidableEq, Repr

/-- The record `Process::CallbackParams` handed to a run callback. -/
structure CallbackParams where
  buffer : CppString
  isEOF : Bool
  resultCode : Int
  deriving DecidableEq, Repr

/-- The four lambdas given to `Process::run`, each with the data it captured by value:
the probe owns the `outputString` accumulator, the generation step the `projectPath`,
the configuration step the `buildDir`. -/
inductive Callback where
  | probe (outputString : CppString)
  | generate (projectPath : CppString)
  | configure (buildDir : CppString)
  | openProject
  deriving DecidableEq, Repr

/-- A process for which `Process::run` returned true and whose callback has not yet seen
the EOF event (the callback still holds the `process` shared pointer). -/
structure RunningProcess where
  pid : Nat
  callback : Callback
  deriving DecidableEq, Repr

/-- The alert configuration passed to `showAlertBoxForWindow`. -/
structure AlertBoxConfig where
  headline : CppString
  description : CppString
  defaultButton : CppString
  secondButton : CppString
  deriving DecidableEq, Repr

/-- The member functions whose invocation is recorded in the trace. -/
inductive Step where
  | runProjectCMake
  | openCMakeGeneratedProject
  deriving DecidableEq, Repr

/-- Ghost trace entries: one per call to a collaborator, to a follow-up step, or to
`validateVSTSDKPath` from `createProject`. -/
inductive Effect where
  | alert (config : AlertBoxConfig)
  | create (exe : CppString) (ok : Bool)
  | run (pid : Nat) (args : List CppString) (ok : Bool)
  | parse (text : CppString)
  | call (step : Step) (path : CppString)
  | validateVSTSDKPath (path : CppString)
  deriving DecidableEq, Repr

/-- The controller: the model values read or written by the functions below, the member
`cmakeCapabilities`, the stored preference read by the probe, and the ghost state. -/
structure Controller where
  vstSdkPath : CppString
  cmakePath : CppString
  pluginPath : CppString
  vendorName : CppString
  vendorURL : CppString
  vendorEMail : CppString
  pluginName : CppString
  pluginFilenamePrefix : CppString
  pluginBundleID : CppString
  vendorNamespace : CppString
  pluginClassName : CppString
  pluginType : Fin 2
  cmakeGenerators : StringListValue
  /-- The text of `valueIdScriptOutput` (the script-output log). -/
  scriptOutput : CppString
  /-- The value of `valueIdScriptRunning` read as `> 0.5` (the busy flag). -/
  scriptRunning : Bool
  /-- Whether the values listed in `onScriptRunning` are active. -/
  valuesActive : Bool
  cmakeCapabilities : CMakeCapabilities
  /-- The preference stored under `valueIdCMakeGenerators`. -/
  prefCMakeGenerators : Option CppString
  processes : List RunningProcess
  /-- Number of `Process::create` calls made so far; names the next process. -/
  attempts : Nat
  trace : List Effect
  deriving DecidableEq, Repr

/-- What the controller calls outside `controller.cpp`. -/
structure Env where
  /-- The `WINDOWS` build switch. -/
  windows : Bool
  /-- The function `parseCMakeCapabilities`: `none` when the text is not well-formed. -/
  parseCMakeCapabilities : CppString → Option CMakeCapabilities
  /-- The function `unixfyPath` (in-place path rewrite). -/
  unixfyPath : CppString → CppString
  /-- The token that `Process::ArgumentList::addPath` stores for a path. -/
  addPath : CppString → CppString
  /-- Whether `std::ifstream stream (p)` ends up open. -/
  fileOpens : CppString → Bool
  /-- The directory `CommonDirectoryLocation::AppResourcesPath`, when available. -/
  appResourcesPath : Option CppString
  /-- Whether the `n`-th call of `Process::create` yields a process. -/
  createSucceeds : Nat → CppString → Bool
  /-- Whether `Process::run` of process `pid` returns true. -/
  runSucceeds : Nat → List CppString → Bool
  /-- The converter call `valueAsString (value->getValue ())` of the generators value. -/
  valueAsString : StringListValue → CppString
  /-- The converter call `stringAsValue` of the generators value. -/
  stringAsValue : StringListValue → CppString → Nat
  /-- The call `updateStringList` of the generators value. -/
  updateStringList : StringListValue → List CppString → StringListValue

/-- The constant `pluginTypeStrings`. -/
def pluginTypeStrings (i : Fin 2) : CppString :=
  if i = 0 then lit "Fx" else lit "Instrument"

/-! ## Collaborators and value edits -/

/-- Appends an entry to the ghost trace. -/
def record (e : Effect) (c : Controller) : Controller :=
  { c with trace := c.trace ++ [e] }

/-- The function `showSimpleAlert (headline, description)`. -/
def showSimpleAlert (headline description : CppString) (c : Controller) : Controller :=
  record (Effect.alert ⟨headline, description, lit "OK", []⟩) c

/-- The configuration built by `Controller::showCMakeNotInstalledWarning`. -/
def cmakeNotInstalledConfig : AlertBoxConfig :=
  ⟨lit "CMake not found!",
   lit "You need to install CMake for your platform to use this application.",
   lit "OK", lit "Download CMake"⟩

/-- The function `Controller::showCMakeNotInstalledWarning`. -/
def showCMakeNotInstalledWarning (c : Controller) : Controller :=
  record (Effect.alert cmakeNotInstalledConfig) c

/-- The function `Controller::onScriptRunning`: (de)activates the listed values. -/
def onScriptRunning (state : Bool) (c : Controller) : Controller :=
  { c with valuesActive := !state }

/-- The call `Value::performSingleEdit (*scriptRunningValue, v)`, whose end-edit
listener is `onScriptRunning`. -/
def setScriptRunning (v : Bool) (c : Controller) : Controller :=
  onScriptRunning v { c with scriptRunning := v }

/-- The call `Value::performStringValueEdit (*scriptOutputValue, str)`; the end-edit
listener `onScriptOutput` is empty. -/
def setScriptOutput (str : CppString) (c : Controller) : Controller :=
  { c with scriptOutput := str }

/-- The call `Value::performStringAppendValueEdit (*scriptOutputValue, str)`. -/
def appendScriptOutput (str : CppString) (c : Controller) : Controller :=
  { c with scriptOutput := c.scriptOutput ++ str }

/-- The call `Process::create (exe)`: the process name when one is returned. -/
def processCreate (env : Env) (exe : CppString) (c : Controller) : Option Nat × Controller :=
  let ok := env.createSucceeds c.attempts exe
  let c1 := record (Effect.create exe ok) { c with attempts := c.attempts + 1 }
  (if ok then some c.attempts else none, c1)

/-- The call `process->run (args, callback)`: on success the callback is registered. -/
def processRun (env : Env) (pid : Nat) (args : List CppString) (cb : Callback)
    (c : Controller) : Bool × Controller :=
  let ok := env.runSucceeds pid args
  let c1 := record (Effect.run pid args ok) c
  (ok, if ok then { c1 with processes := c1.processes ++ [⟨pid, cb⟩] } else c1)

/-- The statement `process.reset ()` at the end of a callback: the callback of `pid` is
no longer registered. -/
def releaseProcess (pid : Nat) (c : Controller) : Controller :=
  { c with processes := c.processes.filter (fun q => q.pid != pid) }

/-- Replaces the callback data of the first process named `pid`, the one that `deliver`
looks up. -/
def updateFirst (pid : Nat) (cb : Callback) : List RunningProcess → List RunningProcess
  | [] => []
  | q :: rest => if q.pid = pid then ⟨pid, cb⟩ :: rest else q :: updateFirst pid cb rest

/-- Stores the captured data of the callback of `pid` (the shared `outputString`). -/
def setCallback (pid : Nat) (cb : Callback) (c : Controller) : Controller :=
  { c with processes := updateFirst pid cb c.processes }

/-- The function `Controller::validateVSTSDKPath`; `none` stands for the undefined
`*p.rbegin ()` of an empty path. -/
def validateVSTSDKPath (env : Env) (path : CppString) : Option Bool :=
  match path.getLast? with
  | none => none
  | some last =>
    let d := PlatformPathDelimiter env.windows
    let p := if last != d then path ++ [d] else path
    let p := p ++ lit "pluginterfaces" ++ [d] ++ lit "vst" ++ [d] ++ lit "vsttypes.h"
    some (env.fileOpens p)

/-! ## The steps -/

/-- The run callback of `openCMakeGeneratedProject` (lines 910-920). -/
def openCallback (pid : Nat) (p : CallbackParams) (c : Controller) : Controller :=
  let c := if !p.buffer.isEmpty then appendScriptOutput p.buffer c else c
  if p.isEOF then releaseProcess pid c else c

/-- The function `Controller::openCMakeGeneratedProject`. -/
def openCMakeGeneratedProject (env : Env) (path : CppString) (c : Controller) : Controller :=
  let c := record (Effect.call Step.openCMakeGeneratedProject path) c
  let cmakePathStr := c.cmakePath
  match processCreate env cmakePathStr c with
  | (none, c) => c
  | (some pid, c) =>
    let args := [lit "--open", env.addPath path]
    let r := processRun env pid args Callback.openProject c
    -- if (!result) { TODO: Show error }
    r.2

/-- The run callback of `runProjectCMake` (lines 877-891). -/
def configureCallback (env : Env) (pid : Nat) (buildDir : CppString) (p : CallbackParams)
    (c : Controller) : Controller :=
  let c := if !p.buffer.isEmpty then appendScriptOutput p.buffer c else c
  if p.isEOF then
    let c := setScriptRunning false c
    let c := if p.resultCode == 0 then openCMakeGeneratedProject env buildDir c else c
    releaseProcess pid c
  else c

/-- The generator name of `runProjectCMake` (lines 849-853): the selected generator, put
in double quotes when it contains a space. -/
def selectedGenerator (env : Env) (c : Controller) : CppString :=
  let generator := env.valueAsString c.cmakeGenerators
  if generator.contains 32 then lit "\"" ++ generator ++ lit "\"" else generator

/-- The build directory of `runProjectCMake` (lines 866-868). -/
def buildDirOf (env : Env) (path : CppString) : CppString :=
  path ++ [PlatformPathDelimiter env.windows] ++ lit "build"

/-- The argument list of `runProjectCMake` (lines 861-869). -/
def configureArgs (env : Env) (generator path : CppString) : List CppString :=
  [lit "-G" ++ generator, lit "-S", env.addPath path, lit "-B",
    env.addPath (buildDirOf env path)]

/-- The function `Controller::runProjectCMake`. -/
def runProjectCMake (env : Env) (path : CppString) (c : Controller) : Controller :=
  let c := record (Effect.call Step.runProjectCMake path) c
  let cmakePathStr := c.cmakePath
  let generator := selectedGenerator env c
  match processCreate env cmakePathStr c with
  | (none, c) => c
  | (some pid, c) =>
    let c := setScriptRunning true c
    let buildDir := buildDirOf env path
    let args := configureArgs env generator path
    let c := appendScriptOutput (lit "\n" ++ cmakePathStr ++ lit " ") c
    let c := args.foldl (fun c a => appendScriptOutput (a ++ lit " ") c) c
    let c := appendScriptOutput (lit "\n") c
    let r := processRun env pid args (Callback.configure buildDir) c
    -- if (!result) { TODO: Show error }
    r.2

/-- The run callback of `createProject` (lines 817-831). -/
def generateCallback (env : Env) (pid : Nat) (projectPath : CppString) (p : CallbackParams)
    (c : Controller) : Controller :=
  let c := if !p.buffer.isEmpty then appendScriptOutput p.buffer c else c
  if p.isEOF then
    let c := setScriptRunning false c
    let c := if p.resultCode == 0 then runProjectCMake env projectPath c else c
    releaseProcess pid c
  else c

/-- The argument list built by `createProject` (lines 779-798). -/
def createProjectArgs (sdkPathStr pluginOutputPathStr pluginNameStr pluginTypeStr
    cmakeProjectName pluginBundleIDStr vendorStr vendorHomePageStr emailStr filenamePrefixStr
    vendorNamspaceStr pluginClassNameStr scriptPath : CppString) : List CppString :=
  [lit "-DSMTG_VST3_SDK_SOURCE_DIR_CLI=\"" ++ sdkPathStr ++ lit "\"",
   lit "-DSMTG_GENERATOR_OUTPUT_DIRECTORY_CLI=\"" ++ pluginOutputPathStr ++ lit "\"",
   lit "-DSMTG_PLUGIN_NAME_CLI=\"" ++ pluginNameStr ++ lit "\"",
   lit "-DSMTG_PLUGIN_CATEGORY_CLI=\"" ++ pluginTypeStr ++ lit "\"",
   lit "-DSMTG_CMAKE_PROJECT_NAME_CLI=\"" ++ cmakeProjectName ++ lit "\"",
   lit "-DSMTG_PLUGIN_BUNDLE_NAME_CLI=\"" ++ pluginNameStr ++ lit "\"",
   lit "-DSMTG_PLUGIN_IDENTIFIER_CLI=\"" ++ pluginBundleIDStr ++ lit "\"",
   lit "-DSMTG_VENDOR_NAME_CLI=\"" ++ vendorStr ++ lit "\"",
   lit "-DSMTG_VENDOR_HOMEPAGE_CLI=\"" ++ vendorHomePageStr ++ lit "\"",
   lit "-DSMTG_VENDOR_EMAIL_CLI=\"" ++ emailStr ++ lit "\"",
   lit "-DSMTG_PREFIX_FOR_FILENAMES_CLI=\"" ++ filenamePrefixStr ++ lit "\""]
  ++ (if !vendorNamspaceStr.isEmpty then
        [lit "-DSMTG_VENDOR_NAMESPACE_CLI=\"" ++ vendorNamspaceStr ++ lit "\""] else [])
  ++ (if !pluginClassNameStr.isEmpty then
        [lit "-DSMTG_PLUGIN_CLASS_NAME_CLI=\"" ++ pluginClassNameStr ++ lit "\""] else [])
  ++ [lit "-P", scriptPath]

/-- The default names (lines 766-772) followed by the argument list (lines 779-798), for
the field values of `c`. -/
def generationArgs (sdkPathStr scriptPath : CppString) (c : Controller) : List CppString :=
  let pluginNameStr := c.pluginName
  let pluginClassNameStr :=
    if c.pluginClassName.isEmpty then (makeValidCppName pluginNameStr defaultReplaceChar).1
    else c.pluginClassName
  let cmakeProjectName := (makeValidCppName pluginNameStr defaultReplaceChar).1
  createProjectArgs sdkPathStr c.pluginPath pluginNameStr (pluginTypeStrings c.pluginType)
    cmakeProjectName c.pluginBundleID c.vendorName c.vendorURL c.vendorEMail
    c.pluginFilenamePrefix c.vendorNamespace pluginClassNameStr scriptPath

/-- The part of `createProject` after the field checks (lines 766-838). -/
def createProjectSpawn (env : Env) (sdkPathStr : CppString) (c : Controller) : Controller :=
  let cmakePathStr := c.cmakePath
  let pluginOutputPathStr := c.pluginPath
  let pluginNameStr := c.pluginName
  match env.appResourcesPath with
  | none => c
  | some resources =>
    let scriptPath := resources ++ lit "GenerateVST3Plugin.cmake"
    let args := generationArgs sdkPathStr scriptPath c
    match processCreate env cmakePathStr c with
    | (none, c) => c
    | (some pid, c) =>
      let c := setScriptRunning true c
      let c := setScriptOutput (cstr cmakePathStr) c
      let c := appendScriptOutput (lit " " ++ scriptPath) c
      let c := args.foldl (fun c arg => appendScriptOutput (lit " " ++ arg) c) c
      let projectPath :=
        pluginOutputPathStr ++ [PlatformPathDelimiter env.windows] ++ pluginNameStr
      let r := processRun env pid args (Callback.generate projectPath) c
      if !r.1 then
        let c := showSimpleAlert (lit "Could not execute CMake")
          (lit "Please verify your path to CMake!") r.2
        setScriptRunning false c
      else r.2

/-- The function `Controller::createProject`. -/
def createProject (env : Env) (c : Controller) : Controller :=
  if c.cmakeCapabilities.versionMajor == 0 then
    showCMakeNotInstalledWarning c
  else
    let _sdkPathStr := c.vstSdkPath
    -- `_sdkPathStr.empty () || !validateVSTSDKPath (_sdkPathStr)`: the right operand is
    -- evaluated, and its call recorded, only when the left one is false
    if _sdkPathStr.isEmpty then
      showSimpleAlert (lit "Cannot create Project") (lit "The VST3 SDK Path is not correct.") c
    else
      let c := record (Effect.validateVSTSDKPath _sdkPathStr) c
      if validateVSTSDKPath env _sdkPathStr != some true then
        showSimpleAlert (lit "Cannot create Project")
          (lit "The VST3 SDK Path is not correct.") c
      else
        let sdkPathStr := env.unixfyPath _sdkPathStr
        if c.pluginPath.isEmpty then
          showSimpleAlert (lit "Cannot create Project")
            (lit "You need to specify an output directory.") c
        else if c.pluginName.isEmpty then
          showSimpleAlert (lit "Cannot create Project")
            (lit "You need to specify a name for your plugin.") c
        else if c.pluginBundleID.isEmpty then
          showSimpleAlert (lit "Cannot create Project")
            (lit "You need to specify a bundle ID.") c
        else
          createProjectSpawn env sdkPathStr c

/-- The success branch of the probe callback (lines 511-527): the generator list of the
UI value is replaced, the stored generator preference (if any) is re-selected, and the
capabilities are moved into `cmakeCapabilities`. -/
def storeCapabilities (env : Env) (capabilities : CMakeCapabilities) (c : Controller) :
    Controller :=
  let gens := env.updateStringList c.cmakeGenerators capabilities.generators
  let gens :=
    match c.prefCMakeGenerators with
    | some generatorPref => { gens with value := env.stringAsValue gens generatorPref }
    | none => gens
  { c with cmakeGenerators := gens, cmakeCapabilities := capabilities }

/-- The run callback of `gatherCMakeInformation` (lines 502-536). -/
def probeCallback (env : Env) (pid : Nat) (outputString : CppString) (p : CallbackParams)
    (c : Controller) : Controller :=
  let outputString := if !p.buffer.isEmpty then outputString ++ p.buffer else outputString
  let c := setCallback pid (Callback.probe outputString) c
  if p.isEOF then
    let c := record (Effect.parse outputString) c
    let c :=
      match env.parseCMakeCapabilities outputString with
      | some capabilities => storeCapabilities env capabilities c
      | none => c -- TODO: show error?
    let c := setScriptRunning false c
    releaseProcess pid c
  else c

/-- The function `Controller::gatherCMakeInformation`. -/
def gatherCMakeInformation (env : Env) (c : Controller) : Controller :=
  let cmakePathStr := c.cmakePath
  match processCreate env cmakePathStr c with
  | (none, c) => c
  | (some pid, c) =>
    let args := [lit "-E", lit "capabilities"]
    let c := setScriptRunning true c
    let r := processRun env pid args (Callback.probe []) c
    -- if (!result) { TODO: show error! }
    r.2

/-! ## Event delivery and sessions -/

/-- One notification of process `pid`: its registered callback, if any, is run. -/
def deliver (env : Env) (pid : Nat) (p : CallbackParams) (c : Controller) : Controller :=
  match c.processes.find? (fun q => q.pid == pid) with
  | none => c
  | some q =>
    match q.callback with
    | Callback.probe outputString => probeCallback env pid outputString p c
    | Callback.generate projectPath => generateCallback env pid projectPath p c
    | Callback.configure buildDir => configureCallback env pid buildDir p c
    | Callback.openProject => openCallback pid p c

/-- A non-final notification carrying `buffer`. -/
def chunkEvent (buffer : CppString) : CallbackParams := ⟨buffer, false, 0⟩

/-- The final notification, with its (possibly empty) buffer and the exit code. -/
def eofEvent (buffer : CppString) (resultCode : Int) : CallbackParams :=
  ⟨buffer, true, resultCode⟩

/-- The notifications of one process run: the chunks, then the EOF event. -/
def processEvents (chunks : List CppString) (eofBuffer : CppString) (resultCode : Int) :
    List CallbackParams :=
  chunks.map chunkEvent ++ [eofEvent eofBuffer resultCode]

/-- Delivers the notifications to the callback of `pid`, in order. -/
def deliverAll (env : Env) (pid : Nat) (ps : List CallbackParams) (c : Controller) :
    Controller :=
  ps.foldl (fun c p => deliver env pid p c) c

/-- The operations of a session. -/
inductive Op where
  | gatherCMakeInformation
  | createProject
  | deliver (pid : Nat) (p : CallbackParams)
  deriving DecidableEq, Repr

/-- Effect of one operation. -/
def step (env : Env) (c : Controller) : Op → Controller
  | Op.gatherCMakeInformation => gatherCMakeInformation env c
  | Op.createProject => createProject env c
  | Op.deliver pid p => deliver env pid p c

/-- Effect of a sequence of operations. -/
def runOps (env : Env) (ops : List Op) (c : Controller) : Controller :=
  ops.foldl (step env) c

/-- A controller right after construction: nothing spawned, not busy, empty log, no
capabilities. -/
def Initial (c : Controller) : Prop :=
  c.processes = [] ∧ c.scriptRunning = false ∧ c.valuesActive = true ∧ c.scriptOutput = [] ∧
    c.cmakeCapabilities = ⟨0, 0, 0, []⟩ ∧ c.attempts = 0 ∧ c.trace = []

/-- States reachable from a fresh controller by any operations. -/
inductive Reachable (env : Env) : Controller → Prop where
  | init (c : Controller) : Initial c → Reachable env c
  | next (c : Controller) (op : Op) : Reachable env c → Reachable env (step env c op)

/-- Whether an operation starts while the busy flag is false: required of both requests
(their values are deactivated by `onScriptRunning` while the flag is true), not of
notifications. -/
def Op.enabled (c : Controller) : Op → Bool
  | Op.gatherCMakeInformation => !c.scriptRunning
  | Op.createProject => !c.scriptRunning
  | Op.deliver _ _ => true

/-- Whether every operation of the sequence is enabled in the state it starts from. -/
def enabledAlong (env : Env) : List Op → Controller → Bool
  | [], _ => true
  | op :: rest, c => op.enabled c && enabledAlong env rest (step env c op)

/-- States reachable when requests are only started while the busy flag is false. -/
inductive ReachableIdleStart (env : Env) : Controller → Prop where
  | init (c : Controller) : Initial c → ReachableIdleStart env c
  | next (c : Controller) (op : Op) :
      ReachableIdleStart env c → op.enabled c = true → ReachableIdleStart env (step env c op)

/-- The processes that hold the busy flag: probe, generation and configuration. -/
def busyProcesses (c : Controller) : List RunningProcess :=
  c.processes.filter (fun q => q.callback != Callback.openProject)

/-- The ghost state is well formed: every registered process was named by an earlier
`Process::create`. -/
def WellFormed (c : Controller) : Prop :=
  ∀ q ∈ c.processes, q.pid < c.attempts

/-- The invariant behind the busy flag: at most one busy-flag process is registered, and
none while the flag is false. -/
def BusyInvariant (c : Controller) : Prop :=
  (busyProcesses c).length ≤ 1 ∧ (c.scriptRunning = false → busyProcesses c = [])

/-! ## Sample data -/

/-- A capabilities text as printed by `cmake -E capabilities` (shortened). -/
def sampleCapabilitiesText : CppString :=
  lit "\x7b\"generators\":[\x7b\"name\":\"Ninja\"\x7d],\"version\":\x7b\"major\":3,\"minor\":16,\"patch\":0\x7d\x7d"

/-- An environment in which every file opens and every process starts; its parser knows
`sampleCapabilitiesText` and rejects every other text. -/
def sampleEnv : Env where
  windows := false
  parseCMakeCapabilities := fun text =>
    if text = sampleCapabilitiesText then some ⟨3, 16, 0, [lit "Ninja"]⟩ else none
  unixfyPath := fun path => path
  addPath := fun path => path
  fileOpens := fun _ => true
  appResourcesPath := some (lit "/res/")
  createSucceeds := fun _ _ => true
  runSucceeds := fun _ _ => true
  valueAsString := fun v => v.strings.getD v.value []
  stringAsValue := fun v str => v.strings.indexOf str
  updateStringList := fun v strings => { v with strings := strings }

/-- The sample environment with a `Process::run` that always returns false. -/
def runFailsEnv : Env := { sampleEnv with runSucceeds := fun _ _ => false }

/-- A freshly constructed controller with the form filled in. -/
def sampleController : Controller where
  vstSdkPath := lit "/sdk"
  cmakePath := lit "/bin/cmake"
  pluginPath := lit "/out"
  vendorName := lit "Acme"
  vendorURL := lit "acme.org"
  vendorEMail := lit "a@acme.org"
  pluginName := lit "My Plug"
  pluginFilenamePrefix := []
  pluginBundleID := lit "org.acme.plug"
  vendorNamespace := []
  pluginClassName := []
  pluginType := 0
  cmakeGenerators := ⟨[[], []], 0⟩
  scriptOutput := []
  scriptRunning := false
  valuesActive := true
  cmakeCapabilities := ⟨0, 0, 0, []⟩
  prefCMakeGenerators := none
  processes := []
  attempts := 0
  trace := []

/-- The sample controller once CMake 3.16 has been detected. -/
def readyController : Controller :=
  { sampleController with cmakeCapabilities := ⟨3, 16, 0, [lit "Ninja"]⟩ }

/-- A session on the sample data: the probe detects CMake, a project is created and
configured, and while the project is being opened a second project is requested. -/
def overlappingSession : List Op :=
  [Op.gatherCMakeInformation,
   Op.deliver 0 (chunkEvent sampleCapabilitiesText),
   Op.deliver 0 (eofEvent [] 0),
   Op.createProject,
   Op.deliver 1 (eofEvent [] 0),
   Op.deliver 2 (eofEvent [] 0),
   Op.createProject]

/-! ## `makeValidCppValueString` -/

/-- What `makeValidCppValueString` sees of an `IValue`: either the dynamic cast to
`IStringValue` succeeds and the value holds a string, or it fails. -/
inductive IValue where
  | stringValue (str : CppString)
  | otherValue
  deriving DecidableEq, Repr

/-- The function `makeValidCppValueString (IValue& value)`: the value afterwards and the
number of edits (`beginEdit` / `setString` / `endEdit`) performed on it. -/
def makeValidCppValueString (value : IValue) : IValue × Nat :=
  match value with
  | IValue.stringValue str =>
    let r := makeValidCppName str defaultReplaceChar
    if r.2 != 0 then (IValue.stringValue r.1, 1) else (value, 0)
  | IValue.otherValue => (value, 0)

/-! ## Locating CMake -/

/-- `EnvPathSeparator`: a semicolon on Windows, a colon elsewhere. -/
def EnvPathSeparator (windows : Bool) : CChar := if windows then 59 else 58

/-- `CMakeExecutableName`. -/
def CMakeExecutableName (windows : Bool) : CppString :=
  if windows then lit "CMake.exe" else lit "cmake"

/-- One call `std::getline (input, el, delim)` on the rest of the stream: `none` when no
character can be extracted (the call fails and ends the loop), otherwise the characters
before the first delimiter and the stream after that delimiter. -/
def getline (delim : CChar) (input : CppString) : Option (CppString × CppString) :=
  match input with
  | [] => none
  | _ :: _ =>
    some (input.takeWhile (fun ch => ch != delim),
      (input.dropWhile (fun ch => ch != delim)).drop 1)

set_option linter.unusedVariables false in
/-- The `while (std::getline (input, el, EnvPathSeparator))` loop of `getEnvPaths` on the
rest of the stream; `none` stands for the undefined `*el.rbegin ()` of an empty `el`. -/
def getEnvPathsLoop (windows : Bool) (input : CppString) : Option (List CppString) :=
  match h : getline (EnvPathSeparator windows) input with
  | none => some []
  | some (el, rest) =>
    match el.getLast? with
    | none => none
    | some last =>
      let el :=
        if last != PlatformPathDelimiter windows then el ++ [PlatformPathDelimiter windows]
        else el
      (getEnvPathsLoop windows rest).map (fun result => el :: result)
termination_by input.length
decreasing_by
  cases input with
  | nil => simp [getline] at h
  | cons a l =>
    simp only [getline, Option.some.injEq, Prod.mk.injEq] at h
    have hle := (List.dropWhile_suffix (l := a :: l)
      (fun ch => ch != EnvPathSeparator windows)).length_le
    rw [← h.2, List.length_drop]
    simp only [List.length_cons] at hle ⊢
    omega

/-- The function `Controller::getEnvPaths`; `envPath` is the result of
`std::getenv ("PATH")`, `none` when the variable is unset. -/
def getEnvPaths (env : Env) (envPath : Option CppString) : Option (List CppString) :=
  match envPath with
  | none => some []
  | some path => getEnvPathsLoop env.windows path

/-- The `for` loop of `findCMakePath` (lines 978-986). -/
def findInEnvPaths (env : Env) : List CppString → Option CppString
  | [] => none
  | path :: rest =>
    let path := path ++ CMakeExecutableName env.windows
    if env.fileOpens path then some path else findInEnvPaths env rest

/-- The function `Controller::findCMakePath`. -/
def findCMakePath (env : Env) (envPaths : List CppString) : Option CppString :=
  match findInEnvPaths env envPaths with
  | some path => some path
  | none =>
    if !env.windows then
      let path := lit "/usr/local/bin/cmake"
      if env.fileOpens path then some path else none
    else none

/-- The segments of a `PATH` value in the usual sense: the pieces between separators,
empty pieces included. -/
def pathSegments (windows : Bool) (path : CppString) : List CppString :=
  path.splitOn (EnvPathSeparator windows)

/-- A segment with the path delimiter appended exactly when it does not end with it. -/
def withTrailingDelimiter (windows : Bool) (segment : CppString) : CppString :=
  if segment.getLast? = some (PlatformPathDelimiter windows) then segment
  else segment ++ [PlatformPathDelimiter windows]

/-! ## Observations on the trace -/

/-- The paths with which `openCMakeGeneratedProject` was called, oldest first. -/
def openCalls (trace : List Effect) : List CppString :=
  trace.filterMap (fun e =>
    match e with
    | Effect.call Step.openCMakeGeneratedProject path => some path
    | _ => none)

/-- The arguments with which `validateVSTSDKPath` was called, oldest first. -/
def validateCalls (trace : List Effect) : List CppString :=
  trace.filterMap (fun e =>
    match e with
    | Effect.validateVSTSDKPath path => some path
    | _ => none)

/-- The alerts shown, oldest first. -/
def alertsShown (trace : List Effect) : List AlertBoxConfig :=
  trace.filterMap (fun e =>
    match e with
    | Effect.alert config => some config
    | _ => none)

/-- The argument lists handed to `Process::run`, oldest first. -/
def runCalls (trace : List Effect) : List (List CppString) :=
  trace.filterMap (fun e =>
    match e with
    | Effect.run _ args _ => some args
    | _ => none)

/-- A createProject request: the action of the Create Project value (lines 307-311),
which calls `createProject ()` and then resets the value with `v.performEdit (0.)`, a
value not part of the modelled state. The value is one of `valuesToDisable` (line 465),
so `onScriptRunning` deactivates it while the busy flag is true, and an inactive value
delivers no action. -/
def createProjectAction (env : Env) (c : Controller) : Controller :=
  if c.valuesActive then createProject env c else c

/-- A session on the sample data that leaves the controller busy with a generation
process: the probe detects CMake and a project is requested. -/
def busySession : List Op :=
  [Op.gatherCMakeInformation,
   Op.deliver 0 (chunkEvent sampleCapabilitiesText),
   Op.deliver 0 (eofEvent [] 0),
   Op.createProject]

/-- A definition token with its value in double quotes: `-D<KEY>="<value>"`. -/
def cmakeDefinition (key value : CppString) : CppString :=
  lit "-D" ++ key ++ lit "=\"" ++ value ++ lit "\""

/-- The class name handed to the generator script: the field, or the legalized plug-in
name when the field is empty (lines 766-770). -/
def classNameOf (c : Controller) : CppString :=
  if c.pluginClassName = [] then (makeValidCppName c.pluginName defaultReplaceChar).1
  else c.pluginClassName

/-- The sample controller with the generator `Unix Makefiles` selected. -/
def makefilesController : Controller :=
  { readyController with cmakeGenerators := ⟨[lit "Ninja", lit "Unix Makefiles"], 1⟩ }

/-- The sample state in which the configuration process of a project is running: the probe
has detected CMake, the project was requested, and its generation ended with exit code 0. -/
def configuringState : Controller :=
  runOps sampleEnv (busySession ++ [Op.deliver 1 (eofEvent [] 0)]) sampleController

/-- The description of the alert for the first failing field check of `createProject`, in
the order SDK path, output directory, plug-in name, bundle ID. -/
def firstFailingCheck (env : Env) (c : Controller) : CppString :=
  if c.vstSdkPath = [] ∨ validateVSTSDKPath env c.vstSdkPath ≠ some true then
    lit "The VST3 SDK Path is not correct."
  else if c.pluginPath = [] then lit "You need to specify an output directory."
  else if c.pluginName = [] then lit "You need to specify a name for your plugin."
  else lit "You need to specify a bundle ID."

/-- The sample controller, CMake detected, with an empty SDK path and an empty plug-in
name. -/
def incompleteController : Controller :=
  { readyController with vstSdkPath := [], pluginName := [] }

/-! # Theorems -/

/-! ## `makeValidCppName` -/

theorem legal_default_iff (c : CChar) : legal c defaultReplaceChar = true ↔ InCppNameSet c := by
  unfold legal InCppNameSet defaultReplaceChar
  simp only [Bool.or_eq_true, Bool.and_eq_true, decide_eq_true_eq, beq_iff_eq, ge_iff_le]
  delta CChar at *
  omega

theorem legal_self (rc : CChar) : legal rc rc = true := by
  simp [legal]

theorem replaceIfNotLegal_eq (rc : CChar) (s : CppString) (n : Nat) :
    replaceIfNotLegal rc s n =
      (s.map (fun c => if legal c rc then c else rc), n + s.countP (fun c => !legal c rc)) := by
  induction s generalizing n with
  | nil => simp [replaceIfNotLegal]
  | cons c rest ih =>
    simp only [replaceIfNotLegal, ih, List.map_cons, List.countP_cons]
    cases h : legal c rc
    · simp; omega
    · simp

theorem makeValidCppName_fst (s : CppString) :
    (makeValidCppName s defaultReplaceChar).1 = s.map keepOrUnderscore := by
  simp only [makeValidCppName, replaceIfNotLegal_eq]
  apply List.map_congr_left
  intro c _
  unfold keepOrUnderscore
  by_cases h : InCppNameSet c
  · simp [h, (legal_default_iff c).2 h]
  · have : legal c defaultReplaceChar = false := by
      cases hl : legal c defaultReplaceChar
      · rfl
      · exact absurd ((legal_default_iff c).1 hl) h
    rw [if_neg h]
    simp only [this]
    rfl

theorem makeValidCppName_snd (s : CppString) :
    (makeValidCppName s defaultReplaceChar).2 = s.countP (fun c => decide (¬ InCppNameSet c)) := by
  simp only [makeValidCppName, replaceIfNotLegal_eq, Nat.zero_add]
  apply List.countP_congr
  intro c _
  by_cases h : InCppNameSet c
  · simp [h, (legal_default_iff c).2 h]
  · have : legal c defaultReplaceChar = false := by
      cases hl : legal c defaultReplaceChar
      · rfl
      · exact absurd ((legal_default_iff c).1 hl) h
    simp [h, this]

theorem inCppNameSet_underscore : InCppNameSet 95 := by
  unfold InCppNameSet; simp

theorem keepOrUnderscore_ne_iff (c : CChar) : keepOrUnderscore c ≠ c ↔ ¬ InCppNameSet c := by
  unfold keepOrUnderscore
  by_cases h : InCppNameSet c
  · simp [h]
  · simp only [h, if_false, not_false_eq_true, iff_true]
    intro hc
    exact h (hc ▸ inCppNameSet_underscore)

theorem differingPositions_map (s : CppString) :
    differingPositions (s.map keepOrUnderscore) s = s.countP (fun c => decide (¬ InCppNameSet c)) := by
  induction s with
  | nil => simp [differingPositions]
  | cons c rest ih =>
    unfold differingPositions at ih ⊢
    simp only [List.map_cons, List.zip_cons_cons, List.countP_cons, ih]
    by_cases h : InCppNameSet c
    · have : keepOrUnderscore c = c := by simp [keepOrUnderscore, h]
      simp [h, this]
    · have : keepOrUnderscore c ≠ c := (keepOrUnderscore_ne_iff c).2 h
      simp [h, this]

theorem map_keepOrUnderscore_eq_self_iff (s : CppString) :
    s.map keepOrUnderscore = s ↔ s.countP (fun c => decide (¬ InCppNameSet c)) = 0 := by
  induction s with
  | nil => simp
  | cons c rest ih =>
    simp only [List.map_cons, List.cons.injEq, ih, List.countP_cons]
    by_cases h : InCppNameSet c
    · have : keepOrUnderscore c = c := by simp [keepOrUnderscore, h]
      simp [h, this]
    · have : keepOrUnderscore c ≠ c := (keepOrUnderscore_ne_iff c).2 h
      simp [h, this]

/-- C2: with the default replacement character, `makeValidCppName` leaves a string of the
same length in which position `i` holds `s[i]` when `s[i]` is in `[0-9A-Za-z_]` and an
underscore otherwise; a `char` value outside `0 .. 127` (a byte `>= 0x80`, whether `char`
is signed or not) is outside the set. -/
theorem makeValidCppName_pointwise (s : CppString) :
    (makeValidCppName s defaultReplaceChar).1.length = s.length ∧
    (∀ i : Nat, (makeValidCppName s defaultReplaceChar).1[i]? =
      s[i]?.map (fun c => if InCppNameSet c then c else 95)) ∧
    (∀ (i : Nat) (c : CChar), s[i]? = some c → (c < 0 ∨ 128 ≤ c) →
      (makeValidCppName s defaultReplaceChar).1[i]? = some 95) := by
  rw [makeValidCppName_fst]
  refine ⟨by simp, fun i => by rw [List.getElem?_map]; rfl, ?_⟩
  intro i c hi hc
  have hn : ¬ InCppNameSet c := by unfold InCppNameSet; delta CChar at *; omega
  simp [List.getElem?_map, hi, keepOrUnderscore, hn]

theorem makeValidCppName_pointwise_witness :
    (makeValidCppName [97, 200, -56, 32, 95] defaultReplaceChar).1[1]? = some 95 :=
  (makeValidCppName_pointwise [97, 200, -56, 32, 95]).2.2 1 200 rfl (Or.inr (by decide))

/-- C3: with the default replacement character, every character of the string left by
`makeValidCppName` is in `[0-9A-Za-z_]`. -/
theorem makeValidCppName_charset (s : CppString) (c : CChar)
    (h : c ∈ (makeValidCppName s defaultReplaceChar).1) : InCppNameSet c := by
  rw [makeValidCppName_fst, List.mem_map] at h
  obtain ⟨a, _, rfl⟩ := h
  unfold keepOrUnderscore
  by_cases ha : InCppNameSet a
  · rw [if_pos ha]; exact ha
  · rw [if_neg ha]; exact inCppNameSet_underscore

theorem makeValidCppName_charset_witness :
    (95 : CChar) ∈ (makeValidCppName [32, 97, 200] defaultReplaceChar).1 ∧ InCppNameSet 95 :=
  ⟨by decide, makeValidCppName_charset [32, 97, 200] 95 (by decide)⟩

/-- C4: the count returned by `makeValidCppName` (default replacement character) is the
number of positions at which the resulting string differs from the input, which is the
number of input characters outside `[0-9A-Za-z_]`; it is zero exactly when the string is
left unchanged. -/
theorem makeValidCppName_count (s : CppString) :
    (makeValidCppName s defaultReplaceChar).2 =
      differingPositions (makeValidCppName s defaultReplaceChar).1 s ∧
    (makeValidCppName s defaultReplaceChar).2 = s.countP (fun c => decide (¬ InCppNameSet c)) ∧
    ((makeValidCppName s defaultReplaceChar).2 = 0 ↔
      (makeValidCppName s defaultReplaceChar).1 = s) := by
  rw [makeValidCppName_fst, makeValidCppName_snd, differingPositions_map,
    map_keepOrUnderscore_eq_self_iff]
  exact ⟨rfl, rfl, Iff.rfl⟩

/-! ## `createProject` without CMake -/

/-- C1: when `cmakeCapabilities.versionMajor == 0`, `createProject` spawns nothing
(no `Process::create`, no `Process::run`: the process table and the process counter are
unchanged and the only new trace entry is an alert), leaves the busy flag and the
script-output log unchanged, and raises the "CMake not found!" alert before returning;
this for every content of the form fields. -/
theorem createProject_without_cmake (env : Env) (c : Controller)
    (h : c.cmakeCapabilities.versionMajor = 0) :
    (createProject env c).processes = c.processes ∧
    (createProject env c).attempts = c.attempts ∧
    (createProject env c).scriptRunning = c.scriptRunning ∧
    (createProject env c).scriptOutput = c.scriptOutput ∧
    (createProject env c).trace = c.trace ++ [Effect.alert cmakeNotInstalledConfig] ∧
    cmakeNotInstalledConfig.headline = lit "CMake not found!" := by
  simp [createProject, h, showCMakeNotInstalledWarning, record, cmakeNotInstalledConfig]

theorem createProject_without_cmake_witness :
    (createProject sampleEnv sampleController).processes = sampleController.processes ∧
    (createProject sampleEnv sampleController).attempts = sampleController.attempts ∧
    (createProject sampleEnv sampleController).scriptRunning = sampleController.scriptRunning ∧
    (createProject sampleEnv sampleController).scriptOutput = sampleController.scriptOutput ∧
    (createProject sampleEnv sampleController).trace =
      sampleController.trace ++ [Effect.alert cmakeNotInstalledConfig] ∧
    cmakeNotInstalledConfig.headline = lit "CMake not found!" :=
  createProject_without_cmake sampleEnv sampleController rfl

/-! ## Non-zero exit codes -/

theorem appendScriptOutput_nil (c : Controller) : appendScriptOutput [] c = c := by
  cases c; simp [appendScriptOutput]

theorem streamed_eq_append (buffer : CppString) (c : Controller) :
    (if !buffer.isEmpty then appendScriptOutput buffer c else c) = appendScriptOutput buffer c := by
  cases buffer with
  | nil => simp [appendScriptOutput_nil]
  | cons a l => simp

theorem generateCallback_eq (env : Env) (pid : Nat) (path : CppString) (p : CallbackParams)
    (c : Controller) :
    generateCallback env pid path p c =
      if p.isEOF then
        releaseProcess pid
          (if p.resultCode = 0 then
            runProjectCMake env path (setScriptRunning false (appendScriptOutput p.buffer c))
          else setScriptRunning false (appendScriptOutput p.buffer c))
      else appendScriptOutput p.buffer c := by
  simp only [generateCallback, streamed_eq_append, beq_iff_eq]

theorem configureCallback_eq (env : Env) (pid : Nat) (path : CppString) (p : CallbackParams)
    (c : Controller) :
    configureCallback env pid path p c =
      if p.isEOF then
        releaseProcess pid
          (if p.resultCode = 0 then
            openCMakeGeneratedProject env path
              (setScriptRunning false (appendScriptOutput p.buffer c))
          else setScriptRunning false (appendScriptOutput p.buffer c))
      else appendScriptOutput p.buffer c := by
  simp only [configureCallback, streamed_eq_append, beq_iff_eq]

/-- C5: an EOF event with a non-zero result code, delivered to the callback of the
generation step or of the configuration step, sets the busy flag to false, calls no
follow-up step and no collaborator (the trace and the process counter are unchanged, so
nothing is spawned and no alert is raised), registers no process, and leaves the log
as it was plus the buffer of this event. -/
theorem nonzero_exit_halts (env : Env) (pid : Nat) (path : CppString) (p : CallbackParams)
    (c : Controller) (hEOF : p.isEOF = true) (hcode : p.resultCode ≠ 0) :
    ((generateCallback env pid path p c).scriptRunning = false ∧
      (generateCallback env pid path p c).trace = c.trace ∧
      (generateCallback env pid path p c).attempts = c.attempts ∧
      (generateCallback env pid path p c).processes =
        c.processes.filter (fun q => q.pid != pid) ∧
      (generateCallback env pid path p c).scriptOutput = c.scriptOutput ++ p.buffer) ∧
    ((configureCallback env pid path p c).scriptRunning = false ∧
      (configureCallback env pid path p c).trace = c.trace ∧
      (configureCallback env pid path p c).attempts = c.attempts ∧
      (configureCallback env pid path p c).processes =
        c.processes.filter (fun q => q.pid != pid) ∧
      (configureCallback env pid path p c).scriptOutput = c.scriptOutput ++ p.buffer) := by
  simp [generateCallback_eq, configureCallback_eq, hEOF, hcode, releaseProcess,
    setScriptRunning, onScriptRunning, appendScriptOutput]

theorem nonzero_exit_halts_witness :
    (eofEvent [] 1).isEOF = true ∧ (eofEvent [] 1).resultCode ≠ 0 ∧
    (generateCallback sampleEnv 0 (lit "/out/My Plug") (eofEvent [] 1)
      readyController).scriptRunning = false :=
  ⟨rfl, by decide,
    (nonzero_exit_halts sampleEnv 0 (lit "/out/My Plug") (eofEvent [] 1) readyController rfl
      (by decide)).1.1⟩

/-! ## Registered callbacks -/

theorem find?_pid_eq_none (l : List RunningProcess) (n : Nat) (h : ∀ q ∈ l, q.pid < n) :
    l.find? (fun q => q.pid == n) = none := by
  rw [List.find?_eq_none]
  intro q hq
  have := h q hq
  simp only [beq_iff_eq]
  omega

theorem find?_append_new (l : List RunningProcess) (n : Nat) (cb : Callback)
    (h : ∀ q ∈ l, q.pid < n) :
    (l ++ [(⟨n, cb⟩ : RunningProcess)]).find? (fun q => q.pid == n) = some ⟨n, cb⟩ := by
  rw [List.find?_append, find?_pid_eq_none l n h]
  simp

theorem find?_updateFirst (l : List RunningProcess) (pid : Nat) (cb0 cb : Callback)
    (h : l.find? (fun q => q.pid == pid) = some ⟨pid, cb0⟩) :
    (updateFirst pid cb l).find? (fun q => q.pid == pid) = some ⟨pid, cb⟩ := by
  induction l with
  | nil => simp at h
  | cons a rest ih =>
    by_cases ha : a.pid = pid
    · simp [updateFirst, List.find?_cons, ha]
    · have h2 : rest.find? (fun q => q.pid == pid) = some ⟨pid, cb0⟩ := by
        simpa [List.find?_cons, ha] using h
      simp [updateFirst, List.find?_cons, ha, ih h2]

theorem updateFirst_updateFirst (l : List RunningProcess) (pid : Nat) (cb1 cb2 : Callback) :
    updateFirst pid cb2 (updateFirst pid cb1 l) = updateFirst pid cb2 l := by
  induction l with
  | nil => rfl
  | cons a rest ih =>
    by_cases ha : a.pid = pid
    · simp [updateFirst, ha]
    · simp [updateFirst, ha, ih]

theorem setCallback_setCallback (pid : Nat) (cb1 cb2 : Callback) (c : Controller) :
    setCallback pid cb2 (setCallback pid cb1 c) = setCallback pid cb2 c := by
  simp only [setCallback, updateFirst_updateFirst]

/-! ## The capability probe -/

theorem gatherCMakeInformation_started (env : Env) (c : Controller)
    (hcreate : env.createSucceeds c.attempts c.cmakePath = true)
    (hrun : ∀ args, env.runSucceeds c.attempts args = true) :
    gatherCMakeInformation env c =
      { c with
        attempts := c.attempts + 1
        scriptRunning := true
        valuesActive := false
        trace := c.trace ++ [Effect.create c.cmakePath true,
          Effect.run c.attempts [lit "-E", lit "capabilities"] true]
        processes := c.processes ++ [⟨c.attempts, Callback.probe []⟩] } := by
  simp [gatherCMakeInformation, processCreate, processRun, record, setScriptRunning,
    onScriptRunning, hcreate, hrun]

theorem deliver_probe (env : Env) (pid : Nat) (acc : CppString) (p : CallbackParams)
    (c : Controller)
    (h : c.processes.find? (fun q => q.pid == pid) = some ⟨pid, Callback.probe acc⟩) :
    deliver env pid p c = probeCallback env pid acc p c := by
  simp [deliver, h]

theorem probe_acc_eq (acc buffer : CppString) :
    (if !buffer.isEmpty then acc ++ buffer else acc) = acc ++ buffer := by
  cases buffer <;> simp

theorem probe_acc_nil (buffer : CppString) :
    (if !buffer.isEmpty then buffer else []) = buffer := by
  cases buffer <;> simp

theorem probeCallback_chunk (env : Env) (pid : Nat) (acc b : CppString) (c : Controller) :
    probeCallback env pid acc (chunkEvent b) c = setCallback pid (Callback.probe (acc ++ b)) c := by
  simp only [probeCallback, chunkEvent, probe_acc_eq]
  rfl

theorem probeCallback_eof_setCallback (env : Env) (pid : Nat) (acc text : CppString)
    (cb : Callback) (code : Int) (c : Controller) :
    probeCallback env pid acc (eofEvent text code) (setCallback pid cb c) =
      probeCallback env pid acc (eofEvent text code) c := by
  simp only [probeCallback, setCallback_setCallback]

theorem probeCallback_eof_acc (env : Env) (pid : Nat) (acc text : CppString) (code : Int)
    (c : Controller) :
    probeCallback env pid acc (eofEvent text code) c =
      probeCallback env pid [] (eofEvent (acc ++ text) code) c := by
  simp only [probeCallback, eofEvent, probe_acc_eq, List.nil_append, probe_acc_nil]

theorem deliverAll_probe (env : Env) (pid : Nat) (chunks : List CppString)
    (eofBuffer : CppString) (code : Int) (acc : CppString) (c : Controller)
    (h : c.processes.find? (fun q => q.pid == pid) = some ⟨pid, Callback.probe acc⟩) :
    deliverAll env pid (processEvents chunks eofBuffer code) c =
      probeCallback env pid [] (eofEvent (acc ++ chunks.flatten ++ eofBuffer) code) c := by
  induction chunks generalizing acc c with
  | nil =>
    simp only [deliverAll, processEvents, List.map_nil, List.nil_append, List.foldl_cons,
      List.foldl_nil, List.flatten_nil, List.append_nil]
    rw [deliver_probe env pid acc _ c h, probeCallback_eof_acc]
  | cons b rest ih =>
    have hreg : (setCallback pid (Callback.probe (acc ++ b)) c).processes.find?
        (fun q => q.pid == pid) = some ⟨pid, Callback.probe (acc ++ b)⟩ :=
      find?_updateFirst c.processes pid _ _ h
    have := ih (acc ++ b) (setCallback pid (Callback.probe (acc ++ b)) c) hreg
    simp only [deliverAll, processEvents, List.map_cons, List.cons_append, List.foldl_cons,
      List.flatten_cons] at this ⊢
    rw [deliver_probe env pid acc _ c h, probeCallback_chunk, this,
      probeCallback_eof_setCallback]
    simp [List.append_assoc]

theorem gatherCMakeInformation_registered (env : Env) (c : Controller)
    (hwf : WellFormed c)
    (hcreate : env.createSucceeds c.attempts c.cmakePath = true)
    (hrun : ∀ args, env.runSucceeds c.attempts args = true) :
    (gatherCMakeInformation env c).processes.find? (fun q => q.pid == c.attempts) =
      some ⟨c.attempts, Callback.probe []⟩ := by
  rw [gatherCMakeInformation_started env c hcreate hrun]
  exact find?_append_new c.processes c.attempts _ hwf

theorem probe_run (env : Env) (c : Controller) (chunks : List CppString)
    (eofBuffer : CppString) (code : Int)
    (hwf : WellFormed c)
    (hcreate : env.createSucceeds c.attempts c.cmakePath = true)
    (hrun : ∀ args, env.runSucceeds c.attempts args = true) :
    deliverAll env c.attempts (processEvents chunks eofBuffer code)
        (gatherCMakeInformation env c) =
      probeCallback env c.attempts [] (eofEvent (chunks.flatten ++ eofBuffer) code)
        (gatherCMakeInformation env c) := by
  rw [deliverAll_probe env c.attempts chunks eofBuffer code [] _
    (gatherCMakeInformation_registered env c hwf hcreate hrun)]
  simp

/-- C8: the notifications of a probe that ends with exit code 0 make the callback call
the parser exactly once (one `parse` entry is added to the trace, and nothing else), on
the concatenation of all buffers in delivery order, the buffer of the EOF event
included; when the parser returns a value, `cmakeCapabilities` is that value afterwards,
whatever it was before; and the busy flag is false. -/
theorem probe_success_stores (env : Env) (c : Controller) (chunks : List CppString)
    (eofBuffer : CppString)
    (hwf : WellFormed c)
    (hcreate : env.createSucceeds c.attempts c.cmakePath = true)
    (hrun : ∀ args, env.runSucceeds c.attempts args = true) :
    (deliverAll env c.attempts (processEvents chunks eofBuffer 0)
        (gatherCMakeInformation env c)).trace =
      (gatherCMakeInformation env c).trace ++ [Effect.parse (chunks.flatten ++ eofBuffer)] ∧
    (∀ capabilities : CMakeCapabilities,
      env.parseCMakeCapabilities (chunks.flatten ++ eofBuffer) = some capabilities →
      (deliverAll env c.attempts (processEvents chunks eofBuffer 0)
        (gatherCMakeInformation env c)).cmakeCapabilities = capabilities) ∧
    (deliverAll env c.attempts (processEvents chunks eofBuffer 0)
        (gatherCMakeInformation env c)).scriptRunning = false := by
  rw [probe_run env c chunks eofBuffer 0 hwf hcreate hrun]
  simp only [probeCallback, eofEvent, probe_acc_nil, List.nil_append, if_true]
  refine ⟨?_, ?_, ?_⟩
  · cases env.parseCMakeCapabilities (chunks.flatten ++ eofBuffer) <;>
      simp [releaseProcess, setScriptRunning, onScriptRunning, storeCapabilities, record,
        setCallback]
  · intro capabilities hcap
    simp [hcap, releaseProcess, setScriptRunning, onScriptRunning, storeCapabilities]
  · simp [releaseProcess, setScriptRunning, onScriptRunning]

theorem probe_success_stores_witness :
    (deliverAll sampleEnv 0 (processEvents [lit "ab", lit "cd"] [] 0)
        (gatherCMakeInformation sampleEnv sampleController)).trace =
      (gatherCMakeInformation sampleEnv sampleController).trace ++
        [Effect.parse ([lit "ab", lit "cd"].flatten ++ [])] :=
  (probe_success_stores sampleEnv sampleController [lit "ab", lit "cd"] []
    (by simp [WellFormed, sampleController]) rfl (fun _ => rfl)).1

/-- C7 (as amended): for a probe started with `versionMajor == 0`, if the accumulated
output fails to parse then, whatever the exit code of the EOF event, the stored
capabilities are untouched and `versionMajor` is still 0 after the EOF event. -/
theorem probe_parse_failure_keeps_unset (env : Env) (c : Controller)
    (chunks : List CppString) (eofBuffer : CppString) (code : Int)
    (hwf : WellFormed c)
    (hcreate : env.createSucceeds c.attempts c.cmakePath = true)
    (hrun : ∀ args, env.runSucceeds c.attempts args = true)
    (h0 : c.cmakeCapabilities.versionMajor = 0)
    (hparse : env.parseCMakeCapabilities (chunks.flatten ++ eofBuffer) = none) :
    (deliverAll env c.attempts (processEvents chunks eofBuffer code)
        (gatherCMakeInformation env c)).cmakeCapabilities = c.cmakeCapabilities ∧
    (deliverAll env c.attempts (processEvents chunks eofBuffer code)
        (gatherCMakeInformation env c)).cmakeCapabilities.versionMajor = 0 := by
  rw [probe_run env c chunks eofBuffer code hwf hcreate hrun]
  have hc : (probeCallback env c.attempts [] (eofEvent (chunks.flatten ++ eofBuffer) code)
      (gatherCMakeInformation env c)).cmakeCapabilities = c.cmakeCapabilities := by
    simp only [probeCallback, eofEvent, probe_acc_nil, List.nil_append, if_true, hparse]
    rw [gatherCMakeInformation_started env c hcreate hrun]
    simp [releaseProcess, setScriptRunning, onScriptRunning, record, setCallback]
  exact ⟨hc, by rw [hc]; exact h0⟩

theorem probe_parse_failure_keeps_unset_witness :
    (deliverAll sampleEnv 0 (processEvents [lit "CMake Error"] [] 1)
        (gatherCMakeInformation sampleEnv sampleController)).cmakeCapabilities.versionMajor = 0 :=
  (probe_parse_failure_keeps_unset sampleEnv sampleController [lit "CMake Error"] [] 1
    (by simp [WellFormed, sampleController]) rfl (fun _ => rfl) rfl (by decide)).2

/-- C7 (counterexample): a probe started with `versionMajor == 0` whose output parses and
whose EOF event carries exit code 1 ends with `versionMajor == 3`: the probe callback
never reads the result code. -/
theorem probe_nonzero_exit_stores :
    sampleController.cmakeCapabilities.versionMajor = 0 ∧
    (eofEvent [] 1).resultCode ≠ 0 ∧
    (deliverAll sampleEnv 0 (processEvents [sampleCapabilitiesText] [] 1)
        (gatherCMakeInformation sampleEnv sampleController)).cmakeCapabilities.versionMajor = 3 := by
  decide

/-! ## The generation step -/

theorem appendScriptOutput_append (a b : CppString) (c : Controller) :
    appendScriptOutput b (appendScriptOutput a c) = appendScriptOutput (a ++ b) c := by
  simp [appendScriptOutput]

theorem foldl_appendScriptOutput (f : CppString → CppString) (args : List CppString)
    (c : Controller) :
    args.foldl (fun c a => appendScriptOutput (f a) c) c =
      appendScriptOutput (args.map f).flatten c := by
  induction args generalizing c with
  | nil => simp [appendScriptOutput_nil]
  | cons a rest ih => simp [ih, appendScriptOutput_append]

theorem validateVSTSDKPath_nonempty (env : Env) (path : CppString)
    (h : validateVSTSDKPath env path = some true) : path.isEmpty = false := by
  cases path with
  | nil => simp [validateVSTSDKPath] at h
  | cons a l => rfl

theorem createProject_checks_passed (env : Env) (c : Controller)
    (hcap : c.cmakeCapabilities.versionMajor ≠ 0)
    (hsdk : validateVSTSDKPath env c.vstSdkPath = some true)
    (hout : c.pluginPath ≠ []) (hname : c.pluginName ≠ []) (hid : c.pluginBundleID ≠ []) :
    createProject env c = createProjectSpawn env (env.unixfyPath c.vstSdkPath)
      (record (Effect.validateVSTSDKPath c.vstSdkPath) c) := by
  have h1 := validateVSTSDKPath_nonempty env c.vstSdkPath hsdk
  have h2 : (record (Effect.validateVSTSDKPath c.vstSdkPath) c).pluginPath ≠ [] := hout
  have h3 : (record (Effect.validateVSTSDKPath c.vstSdkPath) c).pluginName ≠ [] := hname
  have h4 : (record (Effect.validateVSTSDKPath c.vstSdkPath) c).pluginBundleID ≠ [] := hid
  simp [createProject, hcap, hsdk, h1, h2, h3, h4]

theorem createProjectSpawn_started (env : Env) (sdkPathStr resources : CppString)
    (c : Controller)
    (hres : env.appResourcesPath = some resources)
    (hcreate : env.createSucceeds c.attempts c.cmakePath = true)
    (hrun : ∀ args, env.runSucceeds c.attempts args = true) :
    createProjectSpawn env sdkPathStr c =
      { c with
        attempts := c.attempts + 1
        scriptRunning := true
        valuesActive := false
        scriptOutput := cstr c.cmakePath ++
          ((lit " " ++ (resources ++ lit "GenerateVST3Plugin.cmake")) ++
            ((generationArgs sdkPathStr (resources ++ lit "GenerateVST3Plugin.cmake") c).map
              (fun arg => lit " " ++ arg)).flatten)
        trace := c.trace ++ [Effect.create c.cmakePath true,
          Effect.run c.attempts
            (generationArgs sdkPathStr (resources ++ lit "GenerateVST3Plugin.cmake") c) true]
        processes := c.processes ++ [⟨c.attempts, Callback.generate
          (c.pluginPath ++ [PlatformPathDelimiter env.windows] ++ c.pluginName)⟩] } := by
  simp only [createProjectSpawn, hres, foldl_appendScriptOutput]
  simp [processCreate, processRun, record, setScriptRunning, onScriptRunning, setScriptOutput,
    appendScriptOutput, hcreate, hrun]

theorem deliver_generate (env : Env) (pid : Nat) (path : CppString) (p : CallbackParams)
    (c : Controller)
    (h : c.processes.find? (fun q => q.pid == pid) = some ⟨pid, Callback.generate path⟩) :
    deliver env pid p c = generateCallback env pid path p c := by
  simp [deliver, h]

theorem deliverAll_chunks_generate (env : Env) (pid : Nat) (path : CppString)
    (chunks : List CppString) (c : Controller)
    (h : c.processes.find? (fun q => q.pid == pid) = some ⟨pid, Callback.generate path⟩) :
    deliverAll env pid (chunks.map chunkEvent) c = appendScriptOutput chunks.flatten c := by
  induction chunks generalizing c with
  | nil => simp [deliverAll, appendScriptOutput_nil]
  | cons b rest ih =>
    have hreg : (appendScriptOutput b c).processes.find? (fun q => q.pid == pid) =
        some ⟨pid, Callback.generate path⟩ := h
    have := ih (appendScriptOutput b c) hreg
    simp only [deliverAll, List.map_cons, List.foldl_cons, List.flatten_cons] at this ⊢
    rw [deliver_generate env pid path _ c h, generateCallback_eq]
    simp only [chunkEvent, Bool.false_eq_true, if_false]
    rw [this, appendScriptOutput_append]

theorem deliverAll_generate (env : Env) (pid : Nat) (path : CppString)
    (chunks : List CppString) (eofBuffer : CppString) (code : Int) (c : Controller)
    (h : c.processes.find? (fun q => q.pid == pid) = some ⟨pid, Callback.generate path⟩) :
    deliverAll env pid (processEvents chunks eofBuffer code) c =
      releaseProcess pid
        (if code = 0 then
          runProjectCMake env path
            (setScriptRunning false (appendScriptOutput (chunks.flatten ++ eofBuffer) c))
        else setScriptRunning false (appendScriptOutput (chunks.flatten ++ eofBuffer) c)) := by
  have h1 := deliverAll_chunks_generate env pid path chunks c h
  have hreg : (appendScriptOutput chunks.flatten c).processes.find? (fun q => q.pid == pid) =
      some ⟨pid, Callback.generate path⟩ := h
  simp only [deliverAll, processEvents, List.foldl_append, List.foldl_cons, List.foldl_nil]
    at h1 ⊢
  rw [h1, deliver_generate env pid path _ _ hreg, generateCallback_eq]
  simp only [eofEvent, if_true, appendScriptOutput_append]

theorem selectedGenerator_record (env : Env) (e : Effect) (c : Controller) :
    selectedGenerator env (record e c) = selectedGenerator env c := rfl

theorem runProjectCMake_eq (env : Env) (path : CppString) (c : Controller) :
    runProjectCMake env path c =
      if env.createSucceeds c.attempts c.cmakePath then
        { c with
          attempts := c.attempts + 1
          scriptRunning := true
          valuesActive := false
          scriptOutput := c.scriptOutput ++ ((lit "\n" ++ c.cmakePath ++ lit " ") ++
            (((configureArgs env (selectedGenerator env c) path).map
              (fun a => a ++ lit " ")).flatten ++ lit "\n"))
          trace := c.trace ++ [Effect.call Step.runProjectCMake path,
            Effect.create c.cmakePath true,
            Effect.run c.attempts (configureArgs env (selectedGenerator env c) path)
              (env.runSucceeds c.attempts (configureArgs env (selectedGenerator env c) path))]
          processes :=
            if env.runSucceeds c.attempts (configureArgs env (selectedGenerator env c) path)
            then c.processes ++
              [⟨c.attempts, Callback.configure (buildDirOf env path)⟩]
            else c.processes }
      else
        { c with
          attempts := c.attempts + 1
          trace := c.trace ++ [Effect.call Step.runProjectCMake path,
            Effect.create c.cmakePath false] } := by
  simp only [runProjectCMake, foldl_appendScriptOutput, selectedGenerator_record]
  cases hcreate : env.createSucceeds c.attempts c.cmakePath
  · simp [processCreate, record, hcreate]
  · cases hrun : env.runSucceeds c.attempts (configureArgs env (selectedGenerator env c) path) <;>
      simp [processCreate, processRun, record, hcreate, hrun, setScriptRunning,
        onScriptRunning, appendScriptOutput]

theorem runProjectCMake_appends (env : Env) (path : CppString) (c : Controller) :
    (∃ rest, (runProjectCMake env path c).trace =
        c.trace ++ Effect.call Step.runProjectCMake path :: rest ∧
      ∀ e ∈ rest, ∀ (st : Step) (p : CppString), e ≠ Effect.call st p) ∧
    ∃ suffix, (runProjectCMake env path c).scriptOutput = c.scriptOutput ++ suffix := by
  rw [runProjectCMake_eq]
  cases hcreate : env.createSucceeds c.attempts c.cmakePath
  · exact ⟨⟨[Effect.create c.cmakePath false], by simp, by simp⟩, [], by simp⟩
  · exact ⟨⟨[Effect.create c.cmakePath true,
        Effect.run c.attempts (configureArgs env (selectedGenerator env c) path)
          (env.runSucceeds c.attempts (configureArgs env (selectedGenerator env c) path))],
      by simp, by simp⟩, _, by simp only [if_true]; rfl⟩

theorem createProject_registered (env : Env) (c : Controller) (resources : CppString)
    (hwf : WellFormed c)
    (hcap : c.cmakeCapabilities.versionMajor ≠ 0)
    (hsdk : validateVSTSDKPath env c.vstSdkPath = some true)
    (hout : c.pluginPath ≠ []) (hname : c.pluginName ≠ []) (hid : c.pluginBundleID ≠ [])
    (hres : env.appResourcesPath = some resources)
    (hcreate : env.createSucceeds c.attempts c.cmakePath = true)
    (hrun : ∀ args, env.runSucceeds c.attempts args = true) :
    (createProject env c).processes.find? (fun q => q.pid == c.attempts) =
      some ⟨c.attempts, Callback.generate
        (c.pluginPath ++ [PlatformPathDelimiter env.windows] ++ c.pluginName)⟩ := by
  rw [createProject_checks_passed env c hcap hsdk hout hname hid,
    createProjectSpawn_started env _ resources
      (record (Effect.validateVSTSDKPath c.vstSdkPath) c) hres hcreate hrun]
  exact find?_append_new c.processes c.attempts _ hwf

/-- C6: after `createProject` has started the generation process, delivering any chunks
and then an EOF event with exit code 0 to its callback (a) extends the script-output log
by exactly the concatenation of the chunks, in order, while they stream; (b) ends in the
state obtained by calling `runProjectCMake`, with the project path `outputDirectory +
delimiter + pluginName`, on the state whose log holds all delivered buffers and whose busy
flag was reset; (c) records exactly one call of `runProjectCMake`, with that path; and
(d) keeps the streamed text in the log, the configuration step only appending to it. -/
theorem generating_streams_then_configures (env : Env) (c : Controller)
    (chunks : List CppString) (eofBuffer resources : CppString)
    (hwf : WellFormed c)
    (hcap : c.cmakeCapabilities.versionMajor ≠ 0)
    (hsdk : validateVSTSDKPath env c.vstSdkPath = some true)
    (hout : c.pluginPath ≠ []) (hname : c.pluginName ≠ []) (hid : c.pluginBundleID ≠ [])
    (hres : env.appResourcesPath = some resources)
    (hcreate : env.createSucceeds c.attempts c.cmakePath = true)
    (hrun : ∀ args, env.runSucceeds c.attempts args = true) :
    (deliverAll env c.attempts (chunks.map chunkEvent) (createProject env c)).scriptOutput =
      (createProject env c).scriptOutput ++ chunks.flatten ∧
    deliverAll env c.attempts (processEvents chunks eofBuffer 0) (createProject env c) =
      releaseProcess c.attempts
        (runProjectCMake env
          (c.pluginPath ++ [PlatformPathDelimiter env.windows] ++ c.pluginName)
          (setScriptRunning false
            (appendScriptOutput (chunks.flatten ++ eofBuffer) (createProject env c)))) ∧
    (∃ rest,
      (deliverAll env c.attempts (processEvents chunks eofBuffer 0)
          (createProject env c)).trace =
        (createProject env c).trace ++
          Effect.call Step.runProjectCMake
            (c.pluginPath ++ [PlatformPathDelimiter env.windows] ++ c.pluginName) :: rest ∧
      ∀ e ∈ rest, ∀ (st : Step) (p : CppString), e ≠ Effect.call st p) ∧
    ∃ suffix,
      (deliverAll env c.attempts (processEvents chunks eofBuffer 0)
          (createProject env c)).scriptOutput =
        (createProject env c).scriptOutput ++ (chunks.flatten ++ eofBuffer) ++ suffix := by
  have hreg := createProject_registered env c resources hwf hcap hsdk hout hname hid hres
    hcreate hrun
  have hfinal := deliverAll_generate env c.attempts _ chunks eofBuffer 0 _ hreg
  simp only [if_true] at hfinal
  have happ := runProjectCMake_appends env
    (c.pluginPath ++ [PlatformPathDelimiter env.windows] ++ c.pluginName)
    (setScriptRunning false
      (appendScriptOutput (chunks.flatten ++ eofBuffer) (createProject env c)))
  refine ⟨?_, hfinal, ?_, ?_⟩
  · rw [deliverAll_chunks_generate env c.attempts _ chunks _ hreg]
    rfl
  · rw [hfinal]
    exact happ.1
  · rw [hfinal]
    exact happ.2

theorem generating_streams_then_configures_witness :
    (deliverAll sampleEnv 0 ([lit "ab", lit "cd"].map chunkEvent)
        (createProject sampleEnv readyController)).scriptOutput =
      (createProject sampleEnv readyController).scriptOutput ++ [lit "ab", lit "cd"].flatten :=
  (generating_streams_then_configures sampleEnv readyController [lit "ab", lit "cd"] []
    (lit "/res/") (by simp [WellFormed, readyController, sampleController]) (by decide) (by decide)
    (by decide) (by decide) (by decide) rfl rfl (fun _ => rfl)).1

/-! ## Processes in flight -/

theorem reachable_runOps (env : Env) (ops : List Op) (c : Controller)
    (h : Reachable env c) : Reachable env (runOps env ops c) := by
  induction ops generalizing c with
  | nil => exact h
  | cons op rest ih => exact ih _ (Reachable.next c op h)

theorem reachableIdleStart_runOps (env : Env) (ops : List Op) (c : Controller)
    (h : ReachableIdleStart env c) (hen : enabledAlong env ops c = true) :
    ReachableIdleStart env (runOps env ops c) := by
  induction ops generalizing c with
  | nil => exact h
  | cons op rest ih =>
    simp only [enabledAlong, Bool.and_eq_true] at hen
    exact ih _ (ReachableIdleStart.next c op h hen.1) hen.2

/-- C10 (counterexample): on the sample data, the session `overlappingSession` starts
each request while the busy flag is false, and ends with two registered processes,
numbers 3 and 4: the opening step of the first project, which has not delivered its
EOF event, and the generation step of the second project. -/
theorem two_processes_while_opening :
    Initial sampleController ∧
    enabledAlong sampleEnv overlappingSession sampleController = true ∧
    Reachable sampleEnv (runOps sampleEnv overlappingSession sampleController) ∧
    ReachableIdleStart sampleEnv (runOps sampleEnv overlappingSession sampleController) ∧
    (runOps sampleEnv overlappingSession sampleController).processes.length = 2 ∧
    (runOps sampleEnv overlappingSession sampleController).processes.map
      (fun q => q.pid) = [3, 4] ∧
    ((runOps sampleEnv overlappingSession sampleController).processes.map
      (fun q => q.callback)).head? = some Callback.openProject := by
  have hinit : Initial sampleController := ⟨rfl, rfl, rfl, rfl, rfl, rfl, rfl⟩
  exact ⟨hinit, by decide,
    reachable_runOps sampleEnv overlappingSession sampleController (Reachable.init _ hinit),
    reachableIdleStart_runOps sampleEnv overlappingSession sampleController
      (ReachableIdleStart.init _ hinit) (by decide),
    by decide, by decide, by decide⟩

theorem busyProcesses_releaseProcess (pid : Nat) (c : Controller) :
    busyProcesses (releaseProcess pid c) = (busyProcesses c).filter (fun q => q.pid != pid) := by
  simp only [busyProcesses, releaseProcess, List.filter_filter]
  apply List.filter_congr
  intro q _
  exact Bool.and_comm _ _

theorem filter_pid_eq_nil (l : List RunningProcess) (q : RunningProcess) (pid : Nat)
    (hlen : l.length ≤ 1) (hq : q ∈ l) (hpid : q.pid = pid) :
    l.filter (fun r => r.pid != pid) = [] := by
  match l, hlen, hq with
  | [a], _, hq =>
    have : q = a := by simpa using hq
    subst this
    simp [hpid]

theorem mem_busy_of_find (c : Controller) (pid : Nat) (q : RunningProcess)
    (h : c.processes.find? (fun r => r.pid == pid) = some q)
    (hcb : q.callback ≠ Callback.openProject) : q ∈ busyProcesses c ∧ q.pid = pid := by
  have hmem := List.mem_of_find?_eq_some h
  have hp := List.find?_some h
  simp only [beq_iff_eq] at hp
  exact ⟨by simp [busyProcesses, hmem, hcb], hp⟩

theorem length_filter_le_one (l : List RunningProcess) (f : RunningProcess → Bool)
    (h : l.length ≤ 1) : (l.filter f).length ≤ 1 :=
  Nat.le_trans (List.length_filter_le f l) h

theorem busy_updateFirst_length (l : List RunningProcess) (pid : Nat) (q : RunningProcess)
    (cb : Callback) (h : l.find? (fun r => r.pid == pid) = some q)
    (hq : q.callback ≠ Callback.openProject) (hcb : cb ≠ Callback.openProject) :
    ((updateFirst pid cb l).filter (fun r => r.callback != Callback.openProject)).length =
      (l.filter (fun r => r.callback != Callback.openProject)).length := by
  induction l with
  | nil => simp at h
  | cons a rest ih =>
    by_cases ha : a.pid = pid
    · have hqa : a = q := by simpa [List.find?_cons, ha] using h
      subst hqa
      simp [updateFirst, ha, List.filter_cons, hq, hcb]
    · have h2 : rest.find? (fun r => r.pid == pid) = some q := by
        simpa [List.find?_cons, ha] using h
      simp only [updateFirst, ha, if_false, List.filter_cons]
      split <;> simp [ih h2]

theorem mem_updateFirst (l : List RunningProcess) (pid : Nat) (q : RunningProcess)
    (cb : Callback) (h : l.find? (fun r => r.pid == pid) = some q) :
    (⟨pid, cb⟩ : RunningProcess) ∈ updateFirst pid cb l := by
  induction l with
  | nil => simp at h
  | cons a rest ih =>
    by_cases ha : a.pid = pid
    · simp [updateFirst, ha]
    · have h2 : rest.find? (fun r => r.pid == pid) = some q := by
        simpa [List.find?_cons, ha] using h
      simp [updateFirst, ha, ih h2]


theorem gatherCMakeInformation_shape (env : Env) (c : Controller) :
    (gatherCMakeInformation env c).processes = c.processes ∨
    ∃ q, (gatherCMakeInformation env c).processes = c.processes ++ [q] ∧
      q.callback ≠ Callback.openProject ∧ (gatherCMakeInformation env c).scriptRunning = true := by
  unfold gatherCMakeInformation
  cases hcreate : env.createSucceeds c.attempts c.cmakePath
  · left; simp [processCreate, record, hcreate]
  · cases hrun : env.runSucceeds c.attempts [lit "-E", lit "capabilities"]
    · left
      simp [processCreate, processRun, record, setScriptRunning, onScriptRunning, hcreate, hrun]
    · right
      exact ⟨⟨c.attempts, Callback.probe []⟩, by
        simp [processCreate, processRun, record, setScriptRunning, onScriptRunning, hcreate,
          hrun]⟩

theorem runProjectCMake_shape (env : Env) (path : CppString) (c : Controller) :
    (runProjectCMake env path c).processes = c.processes ∨
    ∃ q, (runProjectCMake env path c).processes = c.processes ++ [q] ∧
      q.callback ≠ Callback.openProject ∧ (runProjectCMake env path c).scriptRunning = true := by
  rw [runProjectCMake_eq]
  cases hcreate : env.createSucceeds c.attempts c.cmakePath
  · left; simp
  · cases hrun : env.runSucceeds c.attempts (configureArgs env (selectedGenerator env c) path)
    · left; simp
    · right
      exact ⟨⟨c.attempts, Callback.configure (buildDirOf env path)⟩, by simp⟩

theorem createProjectSpawn_shape (env : Env) (sdkPathStr : CppString) (c : Controller) :
    (createProjectSpawn env sdkPathStr c).processes = c.processes ∨
    ∃ q, (createProjectSpawn env sdkPathStr c).processes = c.processes ++ [q] ∧
      q.callback ≠ Callback.openProject ∧
      (createProjectSpawn env sdkPathStr c).scriptRunning = true := by
  unfold createProjectSpawn
  cases hres : env.appResourcesPath with
  | none => left; rfl
  | some resources =>
    simp only [foldl_appendScriptOutput]
    cases hcreate : env.createSucceeds c.attempts c.cmakePath
    · left; simp [processCreate, record, hcreate]
    · cases hrun : env.runSucceeds c.attempts
          (generationArgs sdkPathStr (resources ++ lit "GenerateVST3Plugin.cmake") c)
      · left
        simp [processCreate, processRun, record, setScriptRunning, onScriptRunning,
          setScriptOutput, appendScriptOutput, showSimpleAlert, hcreate, hrun]
      · right
        exact ⟨⟨c.attempts, Callback.generate
            (c.pluginPath ++ [PlatformPathDelimiter env.windows] ++ c.pluginName)⟩, by
          simp [processCreate, processRun, record, setScriptRunning, onScriptRunning,
            setScriptOutput, appendScriptOutput, hcreate, hrun]⟩

theorem createProject_shape (env : Env) (c : Controller) :
    (createProject env c).processes = c.processes ∨
    ∃ q, (createProject env c).processes = c.processes ++ [q] ∧
      q.callback ≠ Callback.openProject ∧ (createProject env c).scriptRunning = true := by
  unfold createProject
  split
  · left; rfl
  · simp only []
    split
    · left; rfl
    · split
      · left; rfl
      · split
        · left; rfl
        · split
          · left; rfl
          · split
            · left; rfl
            · exact createProjectSpawn_shape env _
                (record (Effect.validateVSTSDKPath c.vstSdkPath) c)

theorem openCMakeGeneratedProject_shape (env : Env) (path : CppString) (c : Controller) :
    (openCMakeGeneratedProject env path c).scriptRunning = c.scriptRunning ∧
    busyProcesses (openCMakeGeneratedProject env path c) = busyProcesses c := by
  unfold openCMakeGeneratedProject
  cases hcreate : env.createSucceeds c.attempts c.cmakePath
  · simp [processCreate, record, hcreate, busyProcesses]
  · cases hrun : env.runSucceeds c.attempts [lit "--open", env.addPath path] <;>
      simp [processCreate, processRun, record, hcreate, hrun, busyProcesses]

theorem busyInvariant_of_shape (c c1 : Controller) (hidle : busyProcesses c = [])
    (h : c1.processes = c.processes ∨
      ∃ q, c1.processes = c.processes ++ [q] ∧
        q.callback ≠ Callback.openProject ∧ c1.scriptRunning = true) :
    BusyInvariant c1 := by
  unfold busyProcesses at hidle
  rcases h with h | ⟨q, h, hq, hrun⟩
  · simp [BusyInvariant, busyProcesses, h, hidle]
  · simp [BusyInvariant, busyProcesses, h, hidle, List.filter_append, hq, hrun]

theorem busyProcesses_appendScriptOutput (buffer : CppString) (c : Controller) :
    busyProcesses (appendScriptOutput buffer c) = busyProcesses c := rfl

theorem busyProcesses_setScriptRunning (v : Bool) (c : Controller) :
    busyProcesses (setScriptRunning v c) = busyProcesses c := rfl

theorem generateCallback_invariant (env : Env) (pid : Nat) (path : CppString)
    (p : CallbackParams) (c : Controller) (q : RunningProcess) (hinv : BusyInvariant c)
    (hfind : c.processes.find? (fun r => r.pid == pid) = some q)
    (hq : q.callback ≠ Callback.openProject) :
    BusyInvariant (generateCallback env pid path p c) := by
  rw [generateCallback_eq]
  obtain ⟨hmem, hpid⟩ := mem_busy_of_find c pid q hfind hq
  cases hEOF : p.isEOF
  · simpa [BusyInvariant, busyProcesses, appendScriptOutput] using hinv
  · simp only [if_true]
    have hnil : (busyProcesses c).filter (fun r => r.pid != pid) = [] :=
      filter_pid_eq_nil _ q pid hinv.1 hmem hpid
    by_cases hcode : p.resultCode = 0
    · simp only [hcode, if_true]
      rcases runProjectCMake_shape env path
          (setScriptRunning false (appendScriptOutput p.buffer c)) with h | ⟨r, h, hr, hrun⟩
      · have hb : busyProcesses (runProjectCMake env path
            (setScriptRunning false (appendScriptOutput p.buffer c))) = busyProcesses c := by
          unfold busyProcesses; rw [h]; rfl
        simp [BusyInvariant, busyProcesses_releaseProcess, hb, hnil]
      · have hb : busyProcesses (runProjectCMake env path
            (setScriptRunning false (appendScriptOutput p.buffer c))) =
            busyProcesses c ++ [r] := by
          unfold busyProcesses; rw [h]; simp [List.filter_append, hr]; rfl
        refine ⟨?_, ?_⟩
        · rw [busyProcesses_releaseProcess, hb, List.filter_append, hnil, List.nil_append]
          exact length_filter_le_one [r] _ (by simp)
        · intro hfalse
          have : (releaseProcess pid (runProjectCMake env path
              (setScriptRunning false (appendScriptOutput p.buffer c)))).scriptRunning =
              true := hrun
          rw [this] at hfalse
          exact absurd hfalse (by decide)
    · simp only [hcode, if_false]
      simp [BusyInvariant, busyProcesses_releaseProcess, busyProcesses_setScriptRunning,
        busyProcesses_appendScriptOutput, hnil]

theorem configureCallback_invariant (env : Env) (pid : Nat) (path : CppString)
    (p : CallbackParams) (c : Controller) (q : RunningProcess) (hinv : BusyInvariant c)
    (hfind : c.processes.find? (fun r => r.pid == pid) = some q)
    (hq : q.callback ≠ Callback.openProject) :
    BusyInvariant (configureCallback env pid path p c) := by
  rw [configureCallback_eq]
  obtain ⟨hmem, hpid⟩ := mem_busy_of_find c pid q hfind hq
  cases hEOF : p.isEOF
  · simpa [BusyInvariant, busyProcesses, appendScriptOutput] using hinv
  · simp only [if_true]
    have hnil : (busyProcesses c).filter (fun r => r.pid != pid) = [] :=
      filter_pid_eq_nil _ q pid hinv.1 hmem hpid
    by_cases hcode : p.resultCode = 0
    · simp only [hcode, if_true]
      have hb := (openCMakeGeneratedProject_shape env path
        (setScriptRunning false (appendScriptOutput p.buffer c))).2
      simp [BusyInvariant, busyProcesses_releaseProcess, hb, busyProcesses_setScriptRunning,
        busyProcesses_appendScriptOutput, hnil]
    · simp only [hcode, if_false]
      simp [BusyInvariant, busyProcesses_releaseProcess, busyProcesses_setScriptRunning,
        busyProcesses_appendScriptOutput, hnil]

theorem openCallback_invariant (pid : Nat) (p : CallbackParams) (c : Controller)
    (hinv : BusyInvariant c) : BusyInvariant (openCallback pid p c) := by
  simp only [openCallback, streamed_eq_append]
  cases hEOF : p.isEOF
  · simpa [BusyInvariant, busyProcesses, appendScriptOutput] using hinv
  · simp only [if_true]
    refine ⟨?_, ?_⟩
    · rw [busyProcesses_releaseProcess, busyProcesses_appendScriptOutput]
      exact length_filter_le_one _ _ hinv.1
    · intro hfalse
      rw [busyProcesses_releaseProcess, busyProcesses_appendScriptOutput, hinv.2 hfalse]
      rfl

theorem probeCallback_invariant (env : Env) (pid : Nat) (acc : CppString)
    (p : CallbackParams) (c : Controller) (q : RunningProcess) (hinv : BusyInvariant c)
    (hfind : c.processes.find? (fun r => r.pid == pid) = some q)
    (hq : q.callback ≠ Callback.openProject) :
    BusyInvariant (probeCallback env pid acc p c) := by
  simp only [probeCallback, probe_acc_eq]
  have hlen : (busyProcesses (setCallback pid (Callback.probe (acc ++ p.buffer)) c)).length =
      (busyProcesses c).length :=
    busy_updateFirst_length c.processes pid q _ hfind hq (by simp)
  have hmem : (⟨pid, Callback.probe (acc ++ p.buffer)⟩ : RunningProcess) ∈
      busyProcesses (setCallback pid (Callback.probe (acc ++ p.buffer)) c) := by
    simp only [busyProcesses, setCallback, List.mem_filter]
    exact ⟨mem_updateFirst c.processes pid q _ hfind, by simp⟩
  cases hEOF : p.isEOF
  · simp only [Bool.false_eq_true, if_false]
    refine ⟨by rw [hlen]; exact hinv.1, ?_⟩
    intro hfalse
    have h0 := hinv.2 hfalse
    rw [h0] at hlen
    exact List.length_eq_zero.mp hlen
  · simp only [if_true]
    have hnil : (busyProcesses (setCallback pid (Callback.probe (acc ++ p.buffer)) c)).filter
        (fun r => r.pid != pid) = [] :=
      filter_pid_eq_nil _ _ pid (by rw [hlen]; exact hinv.1) hmem rfl
    have hb : busyProcesses (releaseProcess pid (setScriptRunning false
        (match env.parseCMakeCapabilities (acc ++ p.buffer) with
          | some capabilities => storeCapabilities env capabilities
              (record (Effect.parse (acc ++ p.buffer))
                (setCallback pid (Callback.probe (acc ++ p.buffer)) c))
          | none => record (Effect.parse (acc ++ p.buffer))
              (setCallback pid (Callback.probe (acc ++ p.buffer)) c)))) = [] := by
      rw [busyProcesses_releaseProcess, busyProcesses_setScriptRunning]
      cases env.parseCMakeCapabilities (acc ++ p.buffer) <;> exact hnil
    exact ⟨by rw [hb]; simp, fun _ => hb⟩

theorem deliver_invariant (env : Env) (pid : Nat) (p : CallbackParams) (c : Controller)
    (hinv : BusyInvariant c) : BusyInvariant (deliver env pid p c) := by
  unfold deliver
  cases hfind : c.processes.find? (fun q => q.pid == pid) with
  | none => exact hinv
  | some q =>
    dsimp only
    cases hcb : q.callback with
    | probe acc =>
      exact probeCallback_invariant env pid acc p c q hinv hfind (by simp [hcb])
    | generate path =>
      exact generateCallback_invariant env pid path p c q hinv hfind (by simp [hcb])
    | configure dir =>
      exact configureCallback_invariant env pid dir p c q hinv hfind (by simp [hcb])
    | openProject => exact openCallback_invariant pid p c hinv

/-- C10 (as amended): in every state reachable from a fresh controller when
`gatherCMakeInformation` and `createProject` are only started while the busy flag is
false (notifications being delivered at any time), at most one process of the steps that
hold the busy flag (probe, generation, configuration) has not yet delivered its EOF
event, and none of them while the busy flag is false. -/
theorem busy_processes_at_most_one (env : Env) (c : Controller)
    (h : ReachableIdleStart env c) :
    (busyProcesses c).length ≤ 1 ∧ (c.scriptRunning = false → busyProcesses c = []) := by
  show BusyInvariant c
  induction h with
  | init c hinit =>
    have : busyProcesses c = [] := by simp [busyProcesses, hinit.1]
    simp [BusyInvariant, this]
  | next c op _ hen ih =>
    cases op with
    | gatherCMakeInformation =>
      have hidle : c.scriptRunning = false := by simpa [Op.enabled] using hen
      exact busyInvariant_of_shape c _ (ih.2 hidle) (gatherCMakeInformation_shape env c)
    | createProject =>
      have hidle : c.scriptRunning = false := by simpa [Op.enabled] using hen
      exact busyInvariant_of_shape c _ (ih.2 hidle) (createProject_shape env c)
    | deliver pid p => exact deliver_invariant env pid p c ih

theorem busy_processes_at_most_one_witness :
    (busyProcesses (runOps sampleEnv overlappingSession sampleController)).length ≤ 1 :=
  (busy_processes_at_most_one sampleEnv
    (runOps sampleEnv overlappingSession sampleController)
    (reachableIdleStart_runOps sampleEnv overlappingSession sampleController
      (ReachableIdleStart.init _ ⟨rfl, rfl, rfl, rfl, rfl, rfl, rfl⟩) (by decide))).1

/-! ## Well-formedness of the process table -/

theorem wellFormed_of_spawn (c c1 : Controller) (h : WellFormed c)
    (hspawn : (c1.processes = c.processes ∧ c.attempts ≤ c1.attempts) ∨
      ∃ cb, c1.processes = c.processes ++ [⟨c.attempts, cb⟩] ∧
        c1.attempts = c.attempts + 1) : WellFormed c1 := by
  intro q hq
  rcases hspawn with ⟨hp, ha⟩ | ⟨cb, hp, ha⟩
  · rw [hp] at hq
    exact Nat.lt_of_lt_of_le (h q hq) ha
  · rw [hp, List.mem_append, List.mem_singleton] at hq
    rw [ha]
    rcases hq with hq | hq
    · exact Nat.lt_succ_of_lt (h q hq)
    · rw [hq]; exact Nat.lt_succ_self _

theorem wellFormed_gatherCMakeInformation (env : Env) (c : Controller) (h : WellFormed c) :
    WellFormed (gatherCMakeInformation env c) := by
  apply wellFormed_of_spawn c _ h
  unfold gatherCMakeInformation
  cases hcreate : env.createSucceeds c.attempts c.cmakePath
  · left; simp [processCreate, record, hcreate]
  · cases hrun : env.runSucceeds c.attempts [lit "-E", lit "capabilities"]
    · left
      simp [processCreate, processRun, record, setScriptRunning, onScriptRunning, hcreate, hrun]
    · right
      exact ⟨Callback.probe [], by
        simp [processCreate, processRun, record, setScriptRunning, onScriptRunning, hcreate,
          hrun]⟩

theorem wellFormed_runProjectCMake (env : Env) (path : CppString) (c : Controller)
    (h : WellFormed c) : WellFormed (runProjectCMake env path c) := by
  apply wellFormed_of_spawn c _ h
  rw [runProjectCMake_eq]
  cases hcreate : env.createSucceeds c.attempts c.cmakePath
  · left; simp
  · cases hrun : env.runSucceeds c.attempts (configureArgs env (selectedGenerator env c) path)
    · left; simp
    · right
      exact ⟨Callback.configure (buildDirOf env path), by simp⟩

theorem wellFormed_openCMakeGeneratedProject (env : Env) (path : CppString) (c : Controller)
    (h : WellFormed c) : WellFormed (openCMakeGeneratedProject env path c) := by
  apply wellFormed_of_spawn c _ h
  unfold openCMakeGeneratedProject
  cases hcreate : env.createSucceeds c.attempts c.cmakePath
  · left; simp [processCreate, record, hcreate]
  · cases hrun : env.runSucceeds c.attempts [lit "--open", env.addPath path]
    · left; simp [processCreate, processRun, record, hcreate, hrun]
    · right
      exact ⟨Callback.openProject, by simp [processCreate, processRun, record, hcreate, hrun]⟩

theorem wellFormed_createProjectSpawn (env : Env) (sdkPathStr : CppString) (c : Controller)
    (h : WellFormed c) : WellFormed (createProjectSpawn env sdkPathStr c) := by
  apply wellFormed_of_spawn c _ h
  unfold createProjectSpawn
  cases hres : env.appResourcesPath with
  | none => left; exact ⟨rfl, Nat.le_refl _⟩
  | some resources =>
    simp only [foldl_appendScriptOutput]
    cases hcreate : env.createSucceeds c.attempts c.cmakePath
    · left; simp [processCreate, record, hcreate]
    · cases hrun : env.runSucceeds c.attempts
          (generationArgs sdkPathStr (resources ++ lit "GenerateVST3Plugin.cmake") c)
      · left
        simp [processCreate, processRun, record, setScriptRunning, onScriptRunning,
          setScriptOutput, appendScriptOutput, showSimpleAlert, hcreate, hrun]
      · right
        exact ⟨Callback.generate
            (c.pluginPath ++ [PlatformPathDelimiter env.windows] ++ c.pluginName), by
          simp [processCreate, processRun, record, setScriptRunning, onScriptRunning,
            setScriptOutput, appendScriptOutput, hcreate, hrun]⟩

theorem wellFormed_createProject (env : Env) (c : Controller) (h : WellFormed c) :
    WellFormed (createProject env c) := by
  unfold createProject
  split
  · exact h
  · simp only []
    split
    · exact h
    · split
      · exact h
      · split
        · exact h
        · split
          · exact h
          · split
            · exact h
            · exact wellFormed_createProjectSpawn env _
                (record (Effect.validateVSTSDKPath c.vstSdkPath) c) h

theorem wellFormed_releaseProcess (pid : Nat) (c : Controller) (h : WellFormed c) :
    WellFormed (releaseProcess pid c) := by
  intro q hq
  exact h q (List.mem_of_mem_filter hq)

theorem pid_of_mem_updateFirst (l : List RunningProcess) (pid : Nat) (cb : Callback)
    (q : RunningProcess) (hq : q ∈ updateFirst pid cb l) : ∃ a ∈ l, a.pid = q.pid := by
  induction l with
  | nil => simp [updateFirst] at hq
  | cons a rest ih =>
    by_cases ha : a.pid = pid
    · simp only [updateFirst, ha, if_true, List.mem_cons] at hq
      rcases hq with hq | hq
      · exact ⟨a, by simp, by rw [hq]; exact ha⟩
      · exact ⟨q, by simp [hq], rfl⟩
    · simp only [updateFirst, ha, if_false, List.mem_cons] at hq
      rcases hq with hq | hq
      · exact ⟨a, by simp, by rw [hq]⟩
      · obtain ⟨b, hb, hpid⟩ := ih hq
        exact ⟨b, by simp [hb], hpid⟩

theorem wellFormed_setCallback (pid : Nat) (cb : Callback) (c : Controller)
    (h : WellFormed c) : WellFormed (setCallback pid cb c) := by
  intro q hq
  obtain ⟨a, ha, hpid⟩ := pid_of_mem_updateFirst c.processes pid cb q hq
  have := h a ha
  rw [hpid] at this
  exact this

theorem wellFormed_deliver (env : Env) (pid : Nat) (p : CallbackParams) (c : Controller)
    (h : WellFormed c) : WellFormed (deliver env pid p c) := by
  unfold deliver
  cases c.processes.find? (fun q => q.pid == pid) with
  | none => exact h
  | some q =>
    dsimp only
    cases q.callback with
    | probe acc =>
      simp only [probeCallback, probe_acc_eq]
      have h1 := wellFormed_setCallback pid (Callback.probe (acc ++ p.buffer)) c h
      split
      · apply wellFormed_releaseProcess
        cases env.parseCMakeCapabilities (acc ++ p.buffer) <;> exact h1
      · exact h1
    | generate path =>
      dsimp only
      rw [generateCallback_eq]
      have h1 : WellFormed (setScriptRunning false (appendScriptOutput p.buffer c)) := h
      split
      · apply wellFormed_releaseProcess
        split
        · exact wellFormed_runProjectCMake env path _ h1
        · exact h1
      · exact h
    | configure dir =>
      dsimp only
      rw [configureCallback_eq]
      have h1 : WellFormed (setScriptRunning false (appendScriptOutput p.buffer c)) := h
      split
      · apply wellFormed_releaseProcess
        split
        · exact wellFormed_openCMakeGeneratedProject env dir _ h1
        · exact h1
      · exact h
    | openProject =>
      simp only [openCallback, streamed_eq_append]
      split
      · exact wellFormed_releaseProcess pid _ h
      · exact h

theorem reachable_wellFormed (env : Env) (c : Controller) (h : Reachable env c) :
    WellFormed c := by
  induction h with
  | init c hinit =>
    intro q hq
    rw [hinit.1] at hq
    simp at hq
  | next c op _ ih =>
    cases op with
    | gatherCMakeInformation => exact wellFormed_gatherCMakeInformation env c ih
    | createProject => exact wellFormed_createProject env c ih
    | deliver pid p => exact wellFormed_deliver env pid p c ih

/-! ## Spawn failures -/

/-- C9 (what the code does): when `Process::create` yields a process and `Process::run`
returns false, `gatherCMakeInformation` and `runProjectCMake` both return with the busy
flag set, no process registered, and a trace that holds the failed `run` but no alert. -/
theorem spawn_failure_leaves_busy (env : Env) (c : Controller) (path : CppString)
    (hcreate : env.createSucceeds c.attempts c.cmakePath = true)
    (hrun : ∀ args, env.runSucceeds c.attempts args = false) :
    ((gatherCMakeInformation env c).scriptRunning = true ∧
      (gatherCMakeInformation env c).processes = c.processes ∧
      (gatherCMakeInformation env c).scriptOutput = c.scriptOutput ∧
      (gatherCMakeInformation env c).trace = c.trace ++
        [Effect.create c.cmakePath true,
         Effect.run c.attempts [lit "-E", lit "capabilities"] false]) ∧
    ((runProjectCMake env path c).scriptRunning = true ∧
      (runProjectCMake env path c).processes = c.processes ∧
      (runProjectCMake env path c).trace = c.trace ++
        [Effect.call Step.runProjectCMake path, Effect.create c.cmakePath true,
         Effect.run c.attempts (configureArgs env (selectedGenerator env c) path) false]) := by
  refine ⟨?_, ?_⟩
  · simp [gatherCMakeInformation, processCreate, processRun, record, setScriptRunning,
      onScriptRunning, hcreate, hrun]
  · simp [runProjectCMake_eq, hcreate, hrun]

theorem spawn_failure_leaves_busy_witness :
    (gatherCMakeInformation runFailsEnv sampleController).scriptRunning = true ∧
    (gatherCMakeInformation runFailsEnv sampleController).trace =
      [Effect.create (lit "/bin/cmake") true,
       Effect.run 0 [lit "-E", lit "capabilities"] false] ∧
    (runProjectCMake runFailsEnv (lit "/out/My Plug") readyController).scriptRunning = true :=
  ⟨(spawn_failure_leaves_busy runFailsEnv sampleController [] rfl (fun _ => rfl)).1.1,
   (spawn_failure_leaves_busy runFailsEnv sampleController [] rfl (fun _ => rfl)).1.2.2.2,
   (spawn_failure_leaves_busy runFailsEnv readyController (lit "/out/My Plug") rfl
      (fun _ => rfl)).2.1⟩

/-! ## Idempotence of `makeValidCppName` -/

theorem keepOrUnderscore_idem (c : CChar) :
    keepOrUnderscore (keepOrUnderscore c) = keepOrUnderscore c := by
  unfold keepOrUnderscore
  by_cases h : InCppNameSet c
  · simp [h]
  · simp [h, inCppNameSet_underscore]

theorem inCppNameSet_keepOrUnderscore (c : CChar) : InCppNameSet (keepOrUnderscore c) := by
  unfold keepOrUnderscore
  by_cases h : InCppNameSet c
  · rw [if_pos h]; exact h
  · rw [if_neg h]; exact inCppNameSet_underscore

theorem makeValidCppName_idem (s : CppString) :
    makeValidCppName (makeValidCppName s defaultReplaceChar).1 defaultReplaceChar =
      ((makeValidCppName s defaultReplaceChar).1, 0) := by
  apply Prod.ext
  · simp only [makeValidCppName_fst, List.map_map]
    apply List.map_congr_left
    intro c _
    exact keepOrUnderscore_idem c
  · simp only [makeValidCppName_snd, makeValidCppName_fst]
    rw [List.countP_eq_zero]
    intro c hc
    obtain ⟨a, _, rfl⟩ := List.mem_map.1 hc
    simp [inCppNameSet_keepOrUnderscore]

/-- C17: `makeValidCppName` (default replacement character) is idempotent: applied to the
string it produced from any `s`, it leaves that string unchanged and returns 0; hence
`makeValidCppValueString` performs no edit on a string value that holds such a string. -/
theorem makeValidCppName_idempotent (s : CppString) :
    (makeValidCppName (makeValidCppName s defaultReplaceChar).1 defaultReplaceChar).1 =
      (makeValidCppName s defaultReplaceChar).1 ∧
    (makeValidCppName (makeValidCppName s defaultReplaceChar).1 defaultReplaceChar).2 = 0 ∧
    makeValidCppValueString (IValue.stringValue (makeValidCppName s defaultReplaceChar).1) =
      (IValue.stringValue (makeValidCppName s defaultReplaceChar).1, 0) := by
  have h := makeValidCppName_idem s
  refine ⟨by rw [h], by rw [h], ?_⟩
  simp [makeValidCppValueString, h]

/-! ## Locating CMake -/

theorem findInEnvPaths_eq (env : Env) (envPaths : List CppString) :
    findInEnvPaths env envPaths =
      (envPaths.find? (fun entry => env.fileOpens (entry ++ CMakeExecutableName env.windows))).map
        (fun entry => entry ++ CMakeExecutableName env.windows) := by
  induction envPaths with
  | nil => rfl
  | cons entry rest ih =>
    simp only [findInEnvPaths, List.find?_cons]
    cases h : env.fileOpens (entry ++ CMakeExecutableName env.windows)
    · simpa using ih
    · simp

/-- C18: `findCMakePath` returns `entry + CMakeExecutableName` for the first entry, in list
order, whose candidate file opens; when no entry has one, it returns
`/usr/local/bin/cmake` on a non-Windows build if that file opens, and no value
otherwise; this for every list of paths and every file predicate. -/
theorem findCMakePath_first_match (env : Env) (envPaths : List CppString) :
    findCMakePath env envPaths =
      match envPaths.find?
        (fun entry => env.fileOpens (entry ++ CMakeExecutableName env.windows)) with
      | some entry => some (entry ++ CMakeExecutableName env.windows)
      | none =>
        if env.windows = false ∧ env.fileOpens (lit "/usr/local/bin/cmake") = true then
          some (lit "/usr/local/bin/cmake")
        else none := by
  unfold findCMakePath
  rw [findInEnvPaths_eq]
  cases envPaths.find?
      (fun entry => env.fileOpens (entry ++ CMakeExecutableName env.windows)) with
  | some entry => rfl
  | none =>
    cases hw : env.windows <;> cases hf : env.fileOpens (lit "/usr/local/bin/cmake") <;> simp [hf]

theorem splitOnP_takeWhile (p : CChar → Bool) (s : CppString) :
    s.splitOnP p = s.takeWhile (fun ch => !p ch) ::
      (match s.dropWhile (fun ch => !p ch) with
        | [] => []
        | _ :: rest => rest.splitOnP p) := by
  induction s with
  | nil => rfl
  | cons x xs ih =>
    rw [List.splitOnP_cons]
    cases hp : p x
    · simp only [Bool.false_eq_true, if_false, List.takeWhile_cons, List.dropWhile_cons, hp,
        Bool.not_false, if_true]
      rw [ih]
      rfl
    · simp [List.takeWhile_cons, List.dropWhile_cons, hp]

theorem getEnvPathsLoop_nil (windows : Bool) : getEnvPathsLoop windows [] = some [] := by
  rw [getEnvPathsLoop]
  simp [getline]

theorem withTrailingDelimiter_eq (windows : Bool) (el : CppString) (last : CChar)
    (h : el.getLast? = some last) :
    (if last != PlatformPathDelimiter windows then el ++ [PlatformPathDelimiter windows]
      else el) = withTrailingDelimiter windows el := by
  unfold withTrailingDelimiter
  rw [h]
  by_cases hl : last = PlatformPathDelimiter windows
  · simp [hl]
  · simp [hl]

theorem getEnvPathsLoop_eq (windows : Bool) (n : Nat) (path : CppString)
    (hn : path.length ≤ n) (h : [] ∉ pathSegments windows path) :
    getEnvPathsLoop windows path =
      some ((pathSegments windows path).map (withTrailingDelimiter windows)) := by
  induction n generalizing path with
  | zero =>
    have : path = [] := List.length_eq_zero.mp (Nat.le_zero.mp hn)
    subst this
    exact absurd (by simp [pathSegments]) h
  | succ n ih =>
    cases path with
    | nil => exact absurd (by simp [pathSegments]) h
    | cons a l =>
      have hsplit := splitOnP_takeWhile (fun ch => ch == EnvPathSeparator windows) (a :: l)
      have hfun : (fun ch : CChar => !(ch == EnvPathSeparator windows)) =
          (fun ch => ch != EnvPathSeparator windows) := rfl
      rw [hfun] at hsplit
      unfold pathSegments List.splitOn at h ⊢
      rw [getEnvPathsLoop]
      simp only [getline]
      cases hel : ((a :: l).takeWhile (fun ch => ch != EnvPathSeparator windows)).getLast? with
      | none =>
        rw [List.getLast?_eq_none_iff] at hel
        rw [hsplit, hel] at h
        exact absurd (List.mem_cons_self _ _) h
      | some last =>
        simp only [withTrailingDelimiter_eq windows _ last hel]
        cases hdw : (a :: l).dropWhile (fun ch => ch != EnvPathSeparator windows) with
        | nil =>
          rw [hsplit, hdw]
          simp [getEnvPathsLoop_nil]
        | cons b rest =>
          rw [hsplit, hdw] at h
          simp only [List.mem_cons, not_or] at h
          have hlen : rest.length ≤ n := by
            have hle := (List.dropWhile_suffix (l := a :: l)
              (fun ch => ch != EnvPathSeparator windows)).length_le
            rw [hdw] at hle
            simp only [List.length_cons] at hle hn
            omega
          have hrest := ih rest hlen (by unfold pathSegments List.splitOn; exact h.2)
          unfold pathSegments List.splitOn at hrest
          rw [hsplit, hdw]
          simp [hrest]

theorem getLast?_withTrailingDelimiter (windows : Bool) (segment : CppString) :
    (withTrailingDelimiter windows segment).getLast? = some (PlatformPathDelimiter windows) := by
  unfold withTrailingDelimiter
  split
  · assumption
  · simp

/-- C19: for a `PATH` value without empty segment, `getEnvPaths` is defined (every read
of the last character is on a non-empty string) and returns the segments between
separators, in order, each with the path delimiter appended exactly when it does not
already end with it; so every entry ends with the delimiter. An unset or empty `PATH`
yields the empty list. -/
theorem getEnvPaths_segments (env : Env) (path : CppString)
    (h : [] ∉ pathSegments env.windows path) :
    getEnvPaths env (some path) =
      some ((pathSegments env.windows path).map (withTrailingDelimiter env.windows)) ∧
    (∀ entry ∈ (pathSegments env.windows path).map (withTrailingDelimiter env.windows),
      entry.getLast? = some (PlatformPathDelimiter env.windows)) ∧
    getEnvPaths env none = some [] ∧
    getEnvPaths env (some []) = some [] := by
  refine ⟨getEnvPathsLoop_eq env.windows path.length path (Nat.le_refl _) h, ?_, rfl,
    getEnvPathsLoop_nil env.windows⟩
  intro entry hentry
  obtain ⟨segment, _, rfl⟩ := List.mem_map.1 hentry
  exact getLast?_withTrailingDelimiter env.windows segment

theorem getEnvPaths_segments_witness :
    getEnvPaths sampleEnv (some (lit "/usr/bin:/opt/cmake/bin/")) =
      some [lit "/usr/bin/", lit "/opt/cmake/bin/"] :=
  (getEnvPaths_segments sampleEnv (lit "/usr/bin:/opt/cmake/bin/") (by decide)).1

/-! ## Where `openCMakeGeneratedProject` is called -/

theorem openCalls_append (t u : List Effect) :
    openCalls (t ++ u) = openCalls t ++ openCalls u := by
  simp [openCalls, List.filterMap_append]

theorem openCalls_gatherCMakeInformation (env : Env) (c : Controller) :
    openCalls (gatherCMakeInformation env c).trace = openCalls c.trace := by
  unfold gatherCMakeInformation
  cases hcreate : env.createSucceeds c.attempts c.cmakePath
  · simp [processCreate, record, hcreate, openCalls_append, openCalls]
  · cases hrun : env.runSucceeds c.attempts [lit "-E", lit "capabilities"] <;>
      simp [processCreate, processRun, record, setScriptRunning, onScriptRunning, hcreate,
        hrun, openCalls_append, openCalls]

theorem openCalls_runProjectCMake (env : Env) (path : CppString) (c : Controller) :
    openCalls (runProjectCMake env path c).trace = openCalls c.trace := by
  rw [runProjectCMake_eq]
  cases hcreate : env.createSucceeds c.attempts c.cmakePath <;>
    simp [openCalls_append, openCalls]

theorem openCMakeGeneratedProject_trace (env : Env) (path : CppString) (c : Controller) :
    (openCMakeGeneratedProject env path c).trace =
      c.trace ++ (Effect.call Step.openCMakeGeneratedProject path ::
        Effect.create c.cmakePath (env.createSucceeds c.attempts c.cmakePath) ::
        if env.createSucceeds c.attempts c.cmakePath then
          [Effect.run c.attempts [lit "--open", env.addPath path]
            (env.runSucceeds c.attempts [lit "--open", env.addPath path])]
        else []) := by
  unfold openCMakeGeneratedProject
  cases hcreate : env.createSucceeds c.attempts c.cmakePath
  · simp [processCreate, record, hcreate]
  · cases hrun : env.runSucceeds c.attempts [lit "--open", env.addPath path] <;>
      simp [processCreate, processRun, record, hcreate, hrun]

theorem openCalls_openCMakeGeneratedProject (env : Env) (path : CppString) (c : Controller) :
    openCalls (openCMakeGeneratedProject env path c).trace = openCalls c.trace ++ [path] := by
  rw [openCMakeGeneratedProject_trace, openCalls_append]
  cases env.createSucceeds c.attempts c.cmakePath <;> simp [openCalls]

theorem openCalls_createProjectSpawn (env : Env) (sdkPathStr : CppString) (c : Controller) :
    openCalls (createProjectSpawn env sdkPathStr c).trace = openCalls c.trace := by
  unfold createProjectSpawn
  cases hres : env.appResourcesPath with
  | none => rfl
  | some resources =>
    simp only [foldl_appendScriptOutput]
    cases hcreate : env.createSucceeds c.attempts c.cmakePath
    · simp [processCreate, record, hcreate, openCalls_append, openCalls]
    · cases hrun : env.runSucceeds c.attempts
          (generationArgs sdkPathStr (resources ++ lit "GenerateVST3Plugin.cmake") c) <;>
        simp [processCreate, processRun, record, setScriptRunning, onScriptRunning,
          setScriptOutput, appendScriptOutput, showSimpleAlert, hcreate, hrun,
          openCalls_append, openCalls]

theorem openCalls_record (e : Effect) (c : Controller)
    (h : ∀ path, e ≠ Effect.call Step.openCMakeGeneratedProject path) :
    openCalls (record e c).trace = openCalls c.trace := by
  simp only [record, openCalls_append]
  cases e with
  | call st path =>
    cases st with
    | runProjectCMake => simp [openCalls]
    | openCMakeGeneratedProject => exact absurd rfl (h path)
  | _ => simp [openCalls]

theorem openCalls_createProject (env : Env) (c : Controller) :
    openCalls (createProject env c).trace = openCalls c.trace := by
  unfold createProject
  split
  · exact openCalls_record _ c (by simp)
  · simp only []
    split
    · exact openCalls_record _ c (by simp)
    · have hv := openCalls_record (Effect.validateVSTSDKPath c.vstSdkPath) c (by simp)
      split
      · rw [← hv]; exact openCalls_record _ _ (by simp)
      · split
        · rw [← hv]; exact openCalls_record _ _ (by simp)
        · split
          · rw [← hv]; exact openCalls_record _ _ (by simp)
          · split
            · rw [← hv]; exact openCalls_record _ _ (by simp)
            · rw [← hv]; exact openCalls_createProjectSpawn env _ _

theorem openCalls_releaseProcess (pid : Nat) (c : Controller) :
    openCalls (releaseProcess pid c).trace = openCalls c.trace := rfl

theorem openCalls_deliver (env : Env) (pid : Nat) (p : CallbackParams) (c : Controller) :
    openCalls (deliver env pid p c).trace = openCalls c.trace ∨
    ∃ buildDir, c.processes.find? (fun q => q.pid == pid) =
        some ⟨pid, Callback.configure buildDir⟩ ∧
      p.isEOF = true ∧ p.resultCode = 0 ∧
      openCalls (deliver env pid p c).trace = openCalls c.trace ++ [buildDir] := by
  unfold deliver
  cases hfind : c.processes.find? (fun q => q.pid == pid) with
  | none => left; rfl
  | some q =>
    have hpid : q.pid = pid := by simpa using List.find?_some hfind
    dsimp only
    cases hcb : q.callback with
    | probe acc =>
      left
      simp only [probeCallback, probe_acc_eq]
      split
      · cases env.parseCMakeCapabilities (acc ++ p.buffer) <;>
          simp [releaseProcess, setScriptRunning, onScriptRunning, storeCapabilities, record,
            setCallback, openCalls_append, openCalls]
      · rfl
    | generate path =>
      left
      dsimp only
      rw [generateCallback_eq]
      split
      · split
        · rw [openCalls_releaseProcess, openCalls_runProjectCMake]; rfl
        · rfl
      · rfl
    | configure dir =>
      dsimp only
      rw [configureCallback_eq]
      cases hEOF : p.isEOF
      · left; rfl
      · by_cases hcode : p.resultCode = 0
        · right
          refine ⟨dir, ?_, rfl, hcode, ?_⟩
          · rw [← hcb, ← hpid]
          · simp only [hcode, if_true]
            rw [openCalls_releaseProcess, openCalls_openCMakeGeneratedProject]; rfl
        · left
          simp only [hcode, if_false, if_true]
          rfl
    | openProject =>
      left
      simp only [openCallback, streamed_eq_append]
      split <;> rfl

/-! ## The busy flag and the user interface -/

theorem reachable_createProjectAction (env : Env) (c : Controller) (h : Reachable env c) :
    Reachable env (createProjectAction env c) := by
  unfold createProjectAction
  split
  · exact Reachable.next c Op.createProject h
  · exact h

theorem runCalls_append (t u : List Effect) :
    runCalls (t ++ u) = runCalls t ++ runCalls u := by
  simp [runCalls, List.filterMap_append]

theorem generationArgs_eq (sdkPathStr scriptPath : CppString) (c : Controller) :
    generationArgs sdkPathStr scriptPath c =
      [cmakeDefinition (lit "SMTG_VST3_SDK_SOURCE_DIR_CLI") sdkPathStr,
       cmakeDefinition (lit "SMTG_GENERATOR_OUTPUT_DIRECTORY_CLI") c.pluginPath,
       cmakeDefinition (lit "SMTG_PLUGIN_NAME_CLI") c.pluginName,
       cmakeDefinition (lit "SMTG_PLUGIN_CATEGORY_CLI") (pluginTypeStrings c.pluginType),
       cmakeDefinition (lit "SMTG_CMAKE_PROJECT_NAME_CLI")
         (makeValidCppName c.pluginName defaultReplaceChar).1,
       cmakeDefinition (lit "SMTG_PLUGIN_BUNDLE_NAME_CLI") c.pluginName,
       cmakeDefinition (lit "SMTG_PLUGIN_IDENTIFIER_CLI") c.pluginBundleID,
       cmakeDefinition (lit "SMTG_VENDOR_NAME_CLI") c.vendorName,
       cmakeDefinition (lit "SMTG_VENDOR_HOMEPAGE_CLI") c.vendorURL,
       cmakeDefinition (lit "SMTG_VENDOR_EMAIL_CLI") c.vendorEMail,
       cmakeDefinition (lit "SMTG_PREFIX_FOR_FILENAMES_CLI") c.pluginFilenamePrefix] ++
      (if c.vendorNamespace = [] then []
        else [cmakeDefinition (lit "SMTG_VENDOR_NAMESPACE_CLI") c.vendorNamespace]) ++
      (if classNameOf c = [] then []
        else [cmakeDefinition (lit "SMTG_PLUGIN_CLASS_NAME_CLI") (classNameOf c)]) ++
      [lit "-P", scriptPath] := by
  have hcls : (if c.pluginClassName.isEmpty = true then
      (makeValidCppName c.pluginName defaultReplaceChar).1 else c.pluginClassName) =
      classNameOf c := by
    unfold classNameOf
    cases c.pluginClassName <;> rfl
  simp only [generationArgs, createProjectArgs, hcls]
  have hns : (if (!c.vendorNamespace.isEmpty) = true then
      [lit "-DSMTG_VENDOR_NAMESPACE_CLI=\"" ++ c.vendorNamespace ++ lit "\""] else []) =
      (if c.vendorNamespace = [] then []
        else [cmakeDefinition (lit "SMTG_VENDOR_NAMESPACE_CLI") c.vendorNamespace]) := by
    cases c.vendorNamespace <;> rfl
  have hcn : (if (!(classNameOf c).isEmpty) = true then
      [lit "-DSMTG_PLUGIN_CLASS_NAME_CLI=\"" ++ classNameOf c ++ lit "\""] else []) =
      (if classNameOf c = [] then []
        else [cmakeDefinition (lit "SMTG_PLUGIN_CLASS_NAME_CLI") (classNameOf c)]) := by
    cases classNameOf c <;> rfl
  rw [hns, hcn]
  rfl

theorem runCalls_record (e : Effect) (c : Controller)
    (h : ∀ pid args ok, e ≠ Effect.run pid args ok) :
    runCalls (record e c).trace = runCalls c.trace := by
  simp only [record, runCalls_append]
  cases e with
  | run pid args ok => exact absurd rfl (h pid args ok)
  | _ => simp [runCalls]

theorem runCalls_createProjectSpawn (env : Env) (sdkPathStr : CppString) (c : Controller) :
    runCalls (createProjectSpawn env sdkPathStr c).trace = runCalls c.trace ∨
    ∃ resources, env.appResourcesPath = some resources ∧
      runCalls (createProjectSpawn env sdkPathStr c).trace = runCalls c.trace ++
        [generationArgs sdkPathStr (resources ++ lit "GenerateVST3Plugin.cmake") c] := by
  unfold createProjectSpawn
  cases hres : env.appResourcesPath with
  | none => left; rfl
  | some resources =>
    simp only [foldl_appendScriptOutput]
    cases hcreate : env.createSucceeds c.attempts c.cmakePath
    · left; simp [processCreate, record, hcreate, runCalls_append, runCalls]
    · right
      refine ⟨resources, rfl, ?_⟩
      cases hrun : env.runSucceeds c.attempts
          (generationArgs sdkPathStr (resources ++ lit "GenerateVST3Plugin.cmake") c) <;>
        simp [processCreate, processRun, record, setScriptRunning, onScriptRunning,
          setScriptOutput, appendScriptOutput, showSimpleAlert, hcreate, hrun,
          runCalls_append, runCalls]

theorem runCalls_createProject (env : Env) (c : Controller) :
    runCalls (createProject env c).trace = runCalls c.trace ∨
    ∃ resources, env.appResourcesPath = some resources ∧
      runCalls (createProject env c).trace = runCalls c.trace ++
        [generationArgs (env.unixfyPath c.vstSdkPath)
          (resources ++ lit "GenerateVST3Plugin.cmake") c] := by
  unfold createProject
  split
  · left; exact runCalls_record _ c (by simp)
  · simp only []
    split
    · left; exact runCalls_record _ c (by simp)
    · have hv := runCalls_record (Effect.validateVSTSDKPath c.vstSdkPath) c (by simp)
      split
      · left; rw [← hv]; exact runCalls_record _ _ (by simp)
      · split
        · left; rw [← hv]; exact runCalls_record _ _ (by simp)
        · split
          · left; rw [← hv]; exact runCalls_record _ _ (by simp)
          · split
            · left; rw [← hv]; exact runCalls_record _ _ (by simp)
            · rw [← hv]
              exact runCalls_createProjectSpawn env _
                (record (Effect.validateVSTSDKPath c.vstSdkPath) c)

/-- C12 (counterexample): on the sample data `createProject` passes one argument list,
whose third token is `-DSMTG_PLUGIN_NAME_CLI="My Plug"`, the value in double quotes; the
token `-DSMTG_PLUGIN_NAME_CLI=My Plug` of the form `-D` + KEY + `=` + value is not in
the list. -/
theorem generation_values_are_quoted :
    runCalls (createProject sampleEnv readyController).trace =
      [generationArgs (lit "/sdk") (lit "/res/GenerateVST3Plugin.cmake") readyController] ∧
    (generationArgs (lit "/sdk") (lit "/res/GenerateVST3Plugin.cmake") readyController)[2]? =
      some (lit "-DSMTG_PLUGIN_NAME_CLI=\"My Plug\"") ∧
    lit "-D" ++ lit "SMTG_PLUGIN_NAME_CLI" ++ lit "=" ++ readyController.pluginName ∉
      generationArgs (lit "/sdk") (lit "/res/GenerateVST3Plugin.cmake") readyController := by
  decide

/-- C12 (as amended): whenever `createProject` calls `Process::run`, it does so once, and
the argument list ends with `-P` followed by the generator script path (resource
directory + `GenerateVST3Plugin.cmake`); every other token is one definition
`-D<KEY>="<value>"`, the value in double quotes, for the SDK path after `unixfyPath`, the
output directory, the plug-in name, the category string, the legalized project name, the
bundle name, the identifier, the vendor name, homepage and e-mail, the filename prefix,
the namespace (when not empty) and the class name (when not empty); each value is one
token whatever characters it contains. -/
theorem generation_arguments (env : Env) (c : Controller) :
    (runCalls (createProject env c).trace = runCalls c.trace ∨
      ∃ resources, env.appResourcesPath = some resources ∧
        runCalls (createProject env c).trace = runCalls c.trace ++
          [generationArgs (env.unixfyPath c.vstSdkPath)
            (resources ++ lit "GenerateVST3Plugin.cmake") c]) ∧
    ∀ sdkPathStr scriptPath : CppString,
      generationArgs sdkPathStr scriptPath c =
        [cmakeDefinition (lit "SMTG_VST3_SDK_SOURCE_DIR_CLI") sdkPathStr,
         cmakeDefinition (lit "SMTG_GENERATOR_OUTPUT_DIRECTORY_CLI") c.pluginPath,
         cmakeDefinition (lit "SMTG_PLUGIN_NAME_CLI") c.pluginName,
         cmakeDefinition (lit "SMTG_PLUGIN_CATEGORY_CLI") (pluginTypeStrings c.pluginType),
         cmakeDefinition (lit "SMTG_CMAKE_PROJECT_NAME_CLI")
           (makeValidCppName c.pluginName defaultReplaceChar).1,
         cmakeDefinition (lit "SMTG_PLUGIN_BUNDLE_NAME_CLI") c.pluginName,
         cmakeDefinition (lit "SMTG_PLUGIN_IDENTIFIER_CLI") c.pluginBundleID,
         cmakeDefinition (lit "SMTG_VENDOR_NAME_CLI") c.vendorName,
         cmakeDefinition (lit "SMTG_VENDOR_HOMEPAGE_CLI") c.vendorURL,
         cmakeDefinition (lit "SMTG_VENDOR_EMAIL_CLI") c.vendorEMail,
         cmakeDefinition (lit "SMTG_PREFIX_FOR_FILENAMES_CLI") c.pluginFilenamePrefix] ++
        (if c.vendorNamespace = [] then []
          else [cmakeDefinition (lit "SMTG_VENDOR_NAMESPACE_CLI") c.vendorNamespace]) ++
        (if classNameOf c = [] then []
          else [cmakeDefinition (lit "SMTG_PLUGIN_CLASS_NAME_CLI") (classNameOf c)]) ++
        [lit "-P", scriptPath] :=
  ⟨runCalls_createProject env c, fun sdkPathStr scriptPath =>
    generationArgs_eq sdkPathStr scriptPath c⟩

/-- C15: when `createProject` gets past its field checks, it goes on to build the argument
list, in which the class name is never empty, so that its definition is present; the class
name is the legalized plug-in name when the field was empty and the field otherwise; the
project name is always the legalized plug-in name; the legalized name has only characters
of `[0-9A-Za-z_]` and the length of the plug-in name; and the plug-in name itself is handed
over unmodified. -/
theorem default_names (env : Env) (c : Controller)
    (hcap : c.cmakeCapabilities.versionMajor ≠ 0)
    (hsdk : validateVSTSDKPath env c.vstSdkPath = some true)
    (hout : c.pluginPath ≠ []) (hname : c.pluginName ≠ []) (hid : c.pluginBundleID ≠ []) :
    createProject env c = createProjectSpawn env (env.unixfyPath c.vstSdkPath)
      (record (Effect.validateVSTSDKPath c.vstSdkPath) c) ∧
    classNameOf c ≠ [] ∧
    (c.pluginClassName = [] →
      classNameOf c = (makeValidCppName c.pluginName defaultReplaceChar).1) ∧
    (c.pluginClassName ≠ [] → classNameOf c = c.pluginClassName) ∧
    (∀ ch ∈ (makeValidCppName c.pluginName defaultReplaceChar).1, InCppNameSet ch) ∧
    (makeValidCppName c.pluginName defaultReplaceChar).1.length = c.pluginName.length ∧
    ∀ sdkPathStr scriptPath : CppString,
      cmakeDefinition (lit "SMTG_PLUGIN_CLASS_NAME_CLI") (classNameOf c) ∈
        generationArgs sdkPathStr scriptPath c ∧
      cmakeDefinition (lit "SMTG_CMAKE_PROJECT_NAME_CLI")
        (makeValidCppName c.pluginName defaultReplaceChar).1 ∈
        generationArgs sdkPathStr scriptPath c ∧
      cmakeDefinition (lit "SMTG_PLUGIN_NAME_CLI") c.pluginName ∈
        generationArgs sdkPathStr scriptPath c := by
  have hlen : (makeValidCppName c.pluginName defaultReplaceChar).1.length =
      c.pluginName.length := by
    rw [makeValidCppName_fst, List.length_map]
  have hne : (makeValidCppName c.pluginName defaultReplaceChar).1 ≠ [] := by
    intro h0
    rw [h0] at hlen
    exact hname (List.length_eq_zero.mp hlen.symm)
  have hcls : classNameOf c ≠ [] := by
    unfold classNameOf
    split
    · exact hne
    · assumption
  refine ⟨createProject_checks_passed env c hcap hsdk hout hname hid, hcls, ?_, ?_, ?_, hlen, ?_⟩
  · intro h; simp [classNameOf, h]
  · intro h; simp [classNameOf, h]
  · intro ch hch
    rw [makeValidCppName_fst] at hch
    obtain ⟨a, _, rfl⟩ := List.mem_map.1 hch
    exact inCppNameSet_keepOrUnderscore a
  · intro sdkPathStr scriptPath
    rw [generationArgs_eq]
    simp [hcls]

theorem default_names_witness :
    classNameOf readyController ≠ [] ∧
    (makeValidCppName readyController.pluginName defaultReplaceChar).1.length =
      readyController.pluginName.length :=
  ⟨(default_names sampleEnv readyController (by decide) (by decide) (by decide) (by decide)
      (by decide)).2.1,
   (default_names sampleEnv readyController (by decide) (by decide) (by decide) (by decide)
      (by decide)).2.2.2.2.2.1⟩

theorem runCalls_runProjectCMake (env : Env) (path : CppString) (c : Controller) :
    runCalls (runProjectCMake env path c).trace = runCalls c.trace ++
      if env.createSucceeds c.attempts c.cmakePath then
        [configureArgs env (selectedGenerator env c) path]
      else [] := by
  rw [runProjectCMake_eq]
  cases hcreate : env.createSucceeds c.attempts c.cmakePath <;>
    simp [runCalls_append, runCalls]

/-- C13 (counterexample): with the generator `Unix Makefiles` selected, the first token
that `runProjectCMake` passes is `-G"Unix Makefiles"`, the name in double quotes, not
`-G` immediately followed by the name. -/
theorem generator_with_space_is_quoted :
    sampleEnv.valueAsString makefilesController.cmakeGenerators = lit "Unix Makefiles" ∧
    runCalls (runProjectCMake sampleEnv (lit "/out/My Plug") makefilesController).trace =
      [[lit "-G\"Unix Makefiles\"", lit "-S", lit "/out/My Plug", lit "-B",
        lit "/out/My Plug/build"]] ∧
    lit "-G\"Unix Makefiles\"" ≠ lit "-G" ++ lit "Unix Makefiles" := by
  decide

/-- C13 (as amended): for every project path `p` and selected generator name `g`, the
argument list of `runProjectCMake` has exactly five entries, in this order: `-G`
immediately followed by `g`, where `g` is put in double quotes when it contains a space;
`-S`; the path `p` as added by `addPath`; `-B`; and the path `p` + delimiter + `build` as
added by `addPath`. It is the one list `runProjectCMake` passes to `Process::run`. -/
theorem configure_arguments (env : Env) (c : Controller) (p : CppString) :
    configureArgs env (selectedGenerator env c) p =
      [lit "-G" ++
        (if (env.valueAsString c.cmakeGenerators).contains 32 then
          lit "\"" ++ env.valueAsString c.cmakeGenerators ++ lit "\""
        else env.valueAsString c.cmakeGenerators),
       lit "-S", env.addPath p, lit "-B",
       env.addPath (p ++ [PlatformPathDelimiter env.windows] ++ lit "build")] ∧
    (configureArgs env (selectedGenerator env c) p).length = 5 ∧
    runCalls (runProjectCMake env p c).trace = runCalls c.trace ++
      if env.createSucceeds c.attempts c.cmakePath then
        [configureArgs env (selectedGenerator env c) p]
      else [] :=
  ⟨rfl, rfl, runCalls_runProjectCMake env p c⟩

theorem deliver_configure (env : Env) (pid : Nat) (buildDir : CppString) (p : CallbackParams)
    (c : Controller)
    (h : c.processes.find? (fun q => q.pid == pid) = some ⟨pid, Callback.configure buildDir⟩) :
    deliver env pid p c = configureCallback env pid buildDir p c := by
  simp [deliver, h]

theorem openCalls_step (env : Env) (c : Controller) (op : Op) :
    openCalls (step env c op).trace = openCalls c.trace ∨
    ∃ pid p buildDir, op = Op.deliver pid p ∧
      c.processes.find? (fun q => q.pid == pid) = some ⟨pid, Callback.configure buildDir⟩ ∧
      p.isEOF = true ∧ p.resultCode = 0 ∧
      openCalls (step env c op).trace = openCalls c.trace ++ [buildDir] := by
  cases op with
  | gatherCMakeInformation => left; exact openCalls_gatherCMakeInformation env c
  | createProject => left; exact openCalls_createProject env c
  | deliver pid p =>
    rcases openCalls_deliver env pid p c with h | ⟨buildDir, h1, h2, h3, h4⟩
    · left; exact h
    · right; exact ⟨pid, p, buildDir, rfl, h1, h2, h3, h4⟩

/-- C14: (a) an operation adds a call of `openCMakeGeneratedProject` only when it is the
delivery of an EOF event with exit code 0 to a registered configuration callback, and
then exactly one, with the build directory captured by that callback; (b) such a delivery
records the call and `Process::create`, and the argument list then handed to
`Process::run` is exactly `--open` followed by that build directory as added by
`addPath`; (c) the callback registered by `runProjectCMake` for a path captures the build
directory path + delimiter + `build`, and the list passed for configuration ends with
`-B` followed by the same directory as added by `addPath`; (d) for the project path
`outputDirectory + delimiter + pluginName` that directory is `outputDirectory + delimiter
+ pluginName + delimiter + build`. -/
theorem opening_follows_configuring (env : Env) (c : Controller) :
    (∀ op : Op,
      openCalls (step env c op).trace = openCalls c.trace ∨
      ∃ pid p buildDir, op = Op.deliver pid p ∧
        c.processes.find? (fun q => q.pid == pid) = some ⟨pid, Callback.configure buildDir⟩ ∧
        p.isEOF = true ∧ p.resultCode = 0 ∧
        openCalls (step env c op).trace = openCalls c.trace ++ [buildDir]) ∧
    (∀ (pid : Nat) (buffer buildDir : CppString),
      c.processes.find? (fun q => q.pid == pid) = some ⟨pid, Callback.configure buildDir⟩ →
      (deliver env pid (eofEvent buffer 0) c).trace =
        c.trace ++ (Effect.call Step.openCMakeGeneratedProject buildDir ::
          Effect.create c.cmakePath (env.createSucceeds c.attempts c.cmakePath) ::
          if env.createSucceeds c.attempts c.cmakePath then
            [Effect.run c.attempts [lit "--open", env.addPath buildDir]
              (env.runSucceeds c.attempts [lit "--open", env.addPath buildDir])]
          else [])) ∧
    (∀ path : CppString,
      (runProjectCMake env path c).processes =
        (if env.createSucceeds c.attempts c.cmakePath = true ∧
            env.runSucceeds c.attempts (configureArgs env (selectedGenerator env c) path) = true
          then c.processes ++ [⟨c.attempts, Callback.configure (buildDirOf env path)⟩]
          else c.processes) ∧
      (configureArgs env (selectedGenerator env c) path).drop 3 =
        [lit "-B", env.addPath (buildDirOf env path)]) ∧
    ∀ outputDirectory pluginName : CppString,
      buildDirOf env (outputDirectory ++ [PlatformPathDelimiter env.windows] ++ pluginName) =
        outputDirectory ++ [PlatformPathDelimiter env.windows] ++ pluginName ++
          [PlatformPathDelimiter env.windows] ++ lit "build" := by
  refine ⟨openCalls_step env c, ?_, ?_, fun _ _ => rfl⟩
  · intro pid buffer buildDir hreg
    rw [deliver_configure env pid buildDir _ c hreg, configureCallback_eq]
    simp only [eofEvent, if_true]
    exact openCMakeGeneratedProject_trace env buildDir
      (setScriptRunning false (appendScriptOutput buffer c))
  · intro path
    refine ⟨?_, rfl⟩
    rw [runProjectCMake_eq]
    cases hcreate : env.createSucceeds c.attempts c.cmakePath
    · simp
    · cases hrun : env.runSucceeds c.attempts
        (configureArgs env (selectedGenerator env c) path) <;> simp

theorem opening_follows_configuring_witness :
    (deliver sampleEnv 2 (eofEvent [] 0) configuringState).trace =
      configuringState.trace ++
        [Effect.call Step.openCMakeGeneratedProject (lit "/out/My Plug/build"),
         Effect.create (lit "/bin/cmake") true,
         Effect.run 3 [lit "--open", lit "/out/My Plug/build"] true] :=
  (opening_follows_configuring sampleEnv configuringState).2.1 2 []
    (lit "/out/My Plug/build") (by decide)

/-! ## Field checks of `createProject` -/

theorem validateCalls_append (t u : List Effect) :
    validateCalls (t ++ u) = validateCalls t ++ validateCalls u := by
  simp [validateCalls, List.filterMap_append]

theorem validateCalls_record (e : Effect) (c : Controller)
    (h : ∀ path, e ≠ Effect.validateVSTSDKPath path) :
    validateCalls (record e c).trace = validateCalls c.trace := by
  simp only [record, validateCalls_append]
  cases e with
  | validateVSTSDKPath path => exact absurd rfl (h path)
  | _ => simp [validateCalls]

theorem validateCalls_createProjectSpawn (env : Env) (sdkPathStr : CppString)
    (c : Controller) :
    validateCalls (createProjectSpawn env sdkPathStr c).trace = validateCalls c.trace := by
  unfold createProjectSpawn
  cases hres : env.appResourcesPath with
  | none => rfl
  | some resources =>
    simp only [foldl_appendScriptOutput]
    cases hcreate : env.createSucceeds c.attempts c.cmakePath
    · simp [processCreate, record, hcreate, validateCalls_append, validateCalls]
    · cases hrun : env.runSucceeds c.attempts
          (generationArgs sdkPathStr (resources ++ lit "GenerateVST3Plugin.cmake") c) <;>
        simp [processCreate, processRun, record, setScriptRunning, onScriptRunning,
          setScriptOutput, appendScriptOutput, showSimpleAlert, hcreate, hrun,
          validateCalls_append, validateCalls]

theorem validateCalls_createProject (env : Env) (c : Controller) :
    validateCalls (createProject env c).trace = validateCalls c.trace ++
      if c.cmakeCapabilities.versionMajor = 0 ∨ c.vstSdkPath = [] then []
      else [c.vstSdkPath] := by
  unfold createProject
  by_cases hcap : c.cmakeCapabilities.versionMajor = 0
  · simp [hcap, showCMakeNotInstalledWarning, record, validateCalls_append, validateCalls]
  · by_cases hsdk : c.vstSdkPath = []
    · simp [hcap, hsdk, showSimpleAlert, record, validateCalls_append, validateCalls]
    · have hv : validateCalls (record (Effect.validateVSTSDKPath c.vstSdkPath) c).trace =
          validateCalls c.trace ++ [c.vstSdkPath] := by
        simp [record, validateCalls_append, validateCalls]
      simp only [beq_iff_eq, hcap, if_false, List.isEmpty_eq_true, hsdk, false_or]
      rw [← hv]
      split
      · exact validateCalls_record _ _ (by simp [showSimpleAlert])
      · split
        · exact validateCalls_record _ _ (by simp)
        · split
          · exact validateCalls_record _ _ (by simp)
          · split
            · exact validateCalls_record _ _ (by simp)
            · exact validateCalls_createProjectSpawn env _ _

/-- C16: with `versionMajor != 0`, when the SDK path is empty or does not validate, or
the output directory, the plug-in name or the bundle ID is empty, `createProject`
registers no process, leaves the process counter, the busy flag and the log unchanged,
and adds to the trace only the `validateVSTSDKPath` call (when the SDK path is not empty)
and one alert `Cannot create Project` whose description is that of the first failing
check; in no case at all does `createProject` call `validateVSTSDKPath` with an empty
path. -/
theorem createProject_field_checks (env : Env) (c : Controller)
    (hcap : c.cmakeCapabilities.versionMajor ≠ 0)
    (hfail : c.vstSdkPath = [] ∨ validateVSTSDKPath env c.vstSdkPath ≠ some true ∨
      c.pluginPath = [] ∨ c.pluginName = [] ∨ c.pluginBundleID = []) :
    (createProject env c).processes = c.processes ∧
    (createProject env c).attempts = c.attempts ∧
    (createProject env c).scriptRunning = c.scriptRunning ∧
    (createProject env c).scriptOutput = c.scriptOutput ∧
    (createProject env c).trace = c.trace ++
      ((if c.vstSdkPath = [] then [] else [Effect.validateVSTSDKPath c.vstSdkPath]) ++
        [Effect.alert ⟨lit "Cannot create Project", firstFailingCheck env c, lit "OK", []⟩]) ∧
    ∀ c1 : Controller, ∀ path ∈ validateCalls (createProject env c1).trace,
      path ∈ validateCalls c1.trace ∨ path ≠ [] := by
  refine ⟨?_, ?_, ?_, ?_, ?_, ?_⟩
  case refine_6 =>
    intro c1 path hpath
    rw [validateCalls_createProject, List.mem_append] at hpath
    rcases hpath with h | h
    · exact Or.inl h
    · right
      split at h
      · simp at h
      · rename_i hne
        simp only [List.mem_singleton] at h
        rw [h]
        exact fun h0 => hne (Or.inr h0)
  all_goals
    unfold createProject
    by_cases hsdk : c.vstSdkPath = []
    · simp [hcap, hsdk, showSimpleAlert, record, firstFailingCheck]
    · by_cases hval : validateVSTSDKPath env c.vstSdkPath = some true
      · by_cases hout : c.pluginPath = []
        · simp [hcap, hsdk, hval, hout, showSimpleAlert, record, firstFailingCheck]
        · by_cases hname : c.pluginName = []
          · simp [hcap, hsdk, hval, hout, hname, showSimpleAlert, record, firstFailingCheck]
          · have hid : c.pluginBundleID = [] := by
              rcases hfail with h | h | h | h | h
              · exact absurd h hsdk
              · exact absurd hval h
              · exact absurd h hout
              · exact absurd h hname
              · exact h
            simp [hcap, hsdk, hval, hout, hname, hid, showSimpleAlert, record, firstFailingCheck]
      · simp [hcap, hsdk, hval, showSimpleAlert, record, firstFailingCheck]

theorem createProject_field_checks_witness :
    (createProject sampleEnv incompleteController).trace =
      incompleteController.trace ++
        [Effect.alert ⟨lit "Cannot create Project", lit "The VST3 SDK Path is not correct.",
          lit "OK", []⟩] :=
  (createProject_field_checks sampleEnv incompleteController (by decide)
    (Or.inl rfl)).2.2.2.2.1

end ProjectCreator
